import Mathlib

/-!
# RLD compliance calculator: embedding of `src/app/extensions/Example.jsx`

The date rules, the state reconciler and the permission check of the HubSpot extension,
and the serverless functions `update-deal-property.js` and `get-deal-properties.js`,
embedded as pure functions.

Modelling conventions.

* A date string (`closedate`, `requested_launch_date`) is `Option Int`: `none` is a
  falsy value (`null`, `undefined`, `""`), `some n` is a well-formed ISO date
  `YYYY-MM-DD` (with or without a `T...` suffix, which `parseDate` cuts off), `n`
  being the number of days of that calendar day since 1970-01-01.
* A JavaScript `Date` is its time value in milliseconds, an `Int`. Local time is
  taken to be UTC, so the local fields (`getDay`, `setDate`, `setHours`) and
  `toISOString` read the same calendar day; `today` of a claim is `dayOf now`.
* `new Date()` is the parameter `now`.
* `Array.prototype.sort` is stable; it is an insertion sort here.
* `FEDERAL_HOLIDAYS` holds ISO date strings; they are kept as year-month-day
  records and `toISOString().split('T')[0]` produces such a record.
* The reconciler is embedded up to the object `propertiesToUpdate` it builds, a list of
  assignments; date properties of a deal come in one format, so that comparing two of
  them as strings is comparing their days.
* An `async` function ends in a `Completion`: a returned value or an exception thrown to
  the caller. The CRM client and `runServerless` are parameters, and a run records the
  CRM calls it made.
-/

namespace CarlLaunchDate

/-! ## Values and dates -/

/-- A JavaScript value as it reaches the `isClosed` and `pipeline` arguments. -/
inductive JSValue where
  | undefined
  | null
  | bool (b : Bool)
  | str (s : String)
deriving DecidableEq, Repr

/-- The text `YYYY-MM-DD`, as its three numbers. -/
structure ISODate where
  year : Int
  month : Int
  day : Int
deriving DecidableEq, Repr

/-- Milliseconds in a day. -/
def msPerDay : Int := 86400000

/-- The calendar day (days since 1970-01-01) a time value falls on. -/
def dayOf (t : Int) : Int := t / msPerDay

/-- Proleptic Gregorian year, month and day of a day number. -/
def civilOfDay (n : Int) : ISODate :=
  let z := n + 719468
  let era := z / 146097
  let doe := z - era * 146097
  let yoe := (doe - doe / 1460 + doe / 36524 - doe / 146096) / 365
  let y := yoe + era * 400
  let doy := doe - (365 * yoe + yoe / 4 - yoe / 100)
  let mp := (5 * doy + 2) / 153
  let d := doy - (153 * mp + 2) / 5 + 1
  let m := if mp < 10 then mp + 3 else mp - 9
  { year := if m ≤ 2 then y + 1 else y, month := m, day := d }

/-- The date part of `date.toISOString()`, that is `toISOString().split('T')[0]`. -/
def toISODateString (date : Int) : ISODate := civilOfDay (dayOf date)

/-- `date.getDay()`: 0 is Sunday, 1 Monday, ..., 6 Saturday (1970-01-01 was a Thursday). -/
def getDay (date : Int) : Int := (dayOf date + 4) % 7

/-- `date.setDate(date.getDate() + n)`: the same time of day, `n` days later. -/
def addDays (date n : Int) : Int := date + n * msPerDay

/-- `date.setHours(0, 0, 0, 0)`: midnight of the same day. -/
def setHoursMidnight (date : Int) : Int := date - date % msPerDay

/-- `FEDERAL_HOLIDAYS` (Example.jsx, lines 22-32). -/
def FEDERAL_HOLIDAYS : List ISODate := [
  -- 2024
  ⟨2024, 1, 1⟩, ⟨2024, 1, 15⟩, ⟨2024, 2, 19⟩, ⟨2024, 5, 27⟩, ⟨2024, 6, 19⟩,
  ⟨2024, 7, 4⟩, ⟨2024, 9, 2⟩, ⟨2024, 10, 14⟩, ⟨2024, 11, 11⟩, ⟨2024, 11, 28⟩, ⟨2024, 12, 25⟩,
  -- 2025
  ⟨2025, 1, 1⟩, ⟨2025, 1, 20⟩, ⟨2025, 2, 17⟩, ⟨2025, 5, 26⟩, ⟨2025, 6, 19⟩,
  ⟨2025, 7, 4⟩, ⟨2025, 9, 1⟩, ⟨2025, 10, 13⟩, ⟨2025, 11, 11⟩, ⟨2025, 11, 27⟩, ⟨2025, 12, 25⟩,
  -- 2026
  ⟨2026, 1, 1⟩, ⟨2026, 1, 19⟩, ⟨2026, 2, 16⟩, ⟨2026, 5, 25⟩, ⟨2026, 6, 19⟩,
  ⟨2026, 7, 4⟩, ⟨2026, 9, 7⟩, ⟨2026, 10, 12⟩, ⟨2026, 11, 11⟩, ⟨2026, 11, 26⟩, ⟨2026, 12, 25⟩]

/-- `isFederalHoliday(date)` (lines 105-108). -/
def isFederalHoliday (date : Int) : Bool :=
  let dateString := toISODateString date
  FEDERAL_HOLIDAYS.contains dateString

/-- `new Date(s + 'T12:00:00')` for the ISO date `s` of day number `n`: noon of that day. -/
def dateAtNoon (n : Int) : Int := n * msPerDay + 12 * 3600000

/-- `parseDate(dateString)` (lines 111-124): `null` for a falsy argument, otherwise
noon of the day written in the string (each of the three branches sets 12:00:00). -/
def parseDate (dateString : Option Int) : Option Int :=
  match dateString with
  | none => none
  | some n => some (dateAtNoon n)

/-- `formatDateForAPI(date)` (lines 339-345): the day of a `Date`, as a date string. -/
def formatDateForAPI (date : Option Int) : Option Int :=
  match date with
  | none => none
  | some t => some (dayOf t)

/-! ## Compliance evaluator -/

/-- One entry of the list `calculateAllCompliance` returns. -/
structure Violation where
  priority : Nat
  type : String
  message : String
  severity : String
deriving DecidableEq, Repr

/-- `violations.sort((a, b) => a.priority - b.priority)`: a stable sort by priority. -/
def sortByPriority (violations : List Violation) : List Violation :=
  violations.insertionSort (fun a b => a.priority ≤ b.priority)

/-- Rule 1 (lines 205-218), close date in the past: the block's effect on `violations`. -/
def pushRule1 (today : Int) (closeDate : Option Int) (isClosed : JSValue)
    (violations : List Violation) : List Violation :=
  match parseDate closeDate with
  | some close =>
    let close := setHoursMidnight close
    if close < today ∧ isClosed ≠ JSValue.str "true" ∧ isClosed ≠ JSValue.bool true then
      violations ++ [⟨1, "close_date_past", "Close Date is overdue", "error"⟩]
    else violations
  | none => violations

/-- Rule 2 (lines 220-233), RLD in the past: the block's effect on `violations`. -/
def pushRule2 (today : Int) (rldDate : Option Int) (violations : List Violation) :
    List Violation :=
  match parseDate rldDate with
  | some rld =>
    let rld := setHoursMidnight rld
    if rld < today then
      violations ++ [⟨2, "rld_past", "RLD is in the past", "error"⟩]
    else violations
  | none => violations

/-- Rules 3 and 4 (lines 235-258), RLD timing, skipped for the Expansions pipeline. -/
def pushRule34 (isExpansionsPipeline : Bool) (closeDate rldDate : Option Int)
    (violations : List Violation) : List Violation :=
  match isExpansionsPipeline, parseDate closeDate, parseDate rldDate with
  | false, some close, some rld =>
    let minimumRLD := addDays close 28
    if rld < close then
      violations ++ [⟨3, "rld_before_close", "RLD before Close Date", "error"⟩]
    else if rld < minimumRLD then
      violations ++ [⟨4, "rld_too_soon", "RLD too soon (less than 4 weeks)", "warning"⟩]
    else violations
  | _, _, _ => violations

/-- Rule 5 (lines 260-296), RLD weekday, skipped for the Expansions pipeline. -/
def pushRule5 (isExpansionsPipeline : Bool) (rldDate : Option Int)
    (violations : List Violation) : List Violation :=
  match isExpansionsPipeline, parseDate rldDate with
  | false, some rld =>
    let dayOfWeek := getDay rld
    let isMonday : Bool := decide (dayOfWeek = 1)
    let isTuesday : Bool := decide (dayOfWeek = 2)
    if isMonday then
      if isFederalHoliday rld then
        violations ++ [⟨5, "rld_holiday", "RLD is on a federal holiday", "warning"⟩]
      else violations
    else if isTuesday then
      let mondayBefore := addDays rld (-1)
      if !isFederalHoliday mondayBefore then
        violations ++ [⟨5, "rld_wrong_day",
          "RLD should be Monday (Tuesday only if Monday is holiday)", "warning"⟩]
      else violations
    else
      violations ++ [⟨5, "rld_wrong_day",
        "RLD must be on Monday (or Tuesday if Monday is holiday)", "warning"⟩]
  | _, _ => violations

/-- Rule 6 (lines 298-306), missing data. -/
def pushRule6 (closeDate rldDate : Option Int) (violations : List Violation) :
    List Violation :=
  if closeDate.isNone ∨ rldDate.isNone then
    violations ++ [⟨6, "missing_data", "Missing required dates", "warning"⟩]
  else violations

/-- `calculateAllCompliance(closeDate, rldDate, isClosed, pipeline)` (lines 196-320); the
rule blocks run in the order of the source, each on the array the previous one left. -/
def calculateAllCompliance (now : Int) (closeDate rldDate : Option Int)
    (isClosed pipeline : JSValue) : List Violation :=
  let today := setHoursMidnight now
  let violations : List Violation := []
  let isExpansionsPipeline : Bool := decide (pipeline = JSValue.str "782785325")
  let violations := pushRule1 today closeDate isClosed violations
  let violations := pushRule2 today rldDate violations
  let violations := pushRule34 isExpansionsPipeline closeDate rldDate violations
  let violations := pushRule5 isExpansionsPipeline rldDate violations
  let violations := pushRule6 closeDate rldDate violations
  let violations := sortByPriority violations
  if violations.length = 0 then
    [⟨0, "compliant",
      if isExpansionsPipeline then "Expansions pipeline - flexible timing"
      else "All rules compliant", "success"⟩]
  else violations

/-! ## Date suggestion engine -/

/-- The loop `while (isFederalHoliday(targetDate)) targetDate.setDate(targetDate.getDate() + 1)`
(lines 154-156), run for at most `fuel` tests of its condition; `none` when the fuel
is used up before the condition fails. -/
def holidayLoop : Nat → Int → Option Int
  | 0, _ => none
  | fuel + 1, targetDate =>
    if isFederalHoliday targetDate then holidayLoop fuel (addDays targetDate 1)
    else some targetDate

/-- Fuel given to the holiday loop: one test more than there are holidays. -/
def loopFuel : Nat := FEDERAL_HOLIDAYS.length + 1

/-- `calculatePerfectRLD(closeDate, currentRLD)` (lines 127-193). The outer `Option` is
`none` only if the holiday loop runs out of fuel; the inner one is the JavaScript
result, `none` for `null`. -/
def calculatePerfectRLD (closeDate currentRLD : Option Int) : Option (Option Int) :=
  match parseDate closeDate with
  | none => some none
  | some close =>
    let current := parseDate currentRLD
    let fourWeeksOut := addDays close 28
    let targetDate := fourWeeksOut
    let dayOfWeek := getDay targetDate
    let targetDate :=
      if dayOfWeek = 0 then addDays targetDate 1
      else if dayOfWeek = 1 then targetDate
      else
        let daysToNextMonday := 8 - dayOfWeek
        addDays targetDate daysToNextMonday
    match holidayLoop loopFuel targetDate with
    | none => none
    | some targetDate =>
      match current with
      | some current =>
        let minimumDate := addDays close 28
        if current ≥ minimumDate then
          let adjustedCurrent := current
          let currentDay := getDay adjustedCurrent
          if currentDay = 1 then
            if !isFederalHoliday adjustedCurrent then some (some adjustedCurrent)
            else some (some (addDays adjustedCurrent 1))
          else if currentDay = 2 then
            let mondayBefore := addDays adjustedCurrent (-1)
            if isFederalHoliday mondayBefore then some (some adjustedCurrent)
            else some (some mondayBefore)
          else some (some targetDate)
        else some (some targetDate)
      | none => some (some targetDate)

/-! ## State reconciler -/

/-- `getPrimaryViolation(violations)` (lines 35-42). -/
def getPrimaryViolation (violations : List Violation) : String :=
  let nonCompliantViolations := violations.filter (fun v => v.type != "compliant")
  match nonCompliantViolations with
  | [] => "compliant"
  | v :: _ => v.type

/-- `violations.length === 1 && violations[0].type === "compliant"` (lines 449, 872, 1141). -/
def isCompliant (violations : List Violation) : Bool :=
  match violations with
  | [v] => v.type == "compliant"
  | _ => false

/-- The properties of `dealData` the reconciler reads or writes. Date-valued properties
are date strings (`none` is a falsy value, `""` when it is written); the others are
JavaScript values. -/
structure DealData where
  closedate : Option Int
  requested_launch_date : Option Int
  is_closed : JSValue
  pipeline : JSValue
  compliance_status : JSValue
  override_request_status : JSValue
  override_requested_by : JSValue
  override_request_date : Option Int
  override_approved_by : JSValue
  override_approval_date : Option Int
  rld_override_approval : JSValue
  approved_close_date : Option Int
  approved_rld : Option Int
deriving DecidableEq, Repr

/-- One assignment `propertiesToUpdate.<property> = value`: the property and the string
written (for a date-valued property the date string, `none` being `""`). -/
inductive Update where
  | compliance_status (value : String)
  | override_request_status (value : String)
  | override_approved_by (value : String)
  | override_approval_date (value : Option Int)
  | override_requested_by (value : String)
  | override_request_date (value : Option Int)
  | rld_override_approval (value : String)
  | approved_close_date (value : Option Int)
  | approved_rld (value : Option Int)
deriving DecidableEq, Repr

/-- `datesChangedSinceApproval` (lines 469-474): the deal is approved and a non-empty
snapshot date differs from the current one. -/
def datesChangedSinceApproval (dealData : DealData) : Bool :=
  let hasApproval : Bool := decide (dealData.override_request_status = JSValue.str "approved")
  let closeDateChanged : Bool :=
    hasApproval && dealData.approved_close_date.isSome &&
      decide (dealData.closedate ≠ dealData.approved_close_date)
  let rldChanged : Bool :=
    hasApproval && dealData.approved_rld.isSome &&
      decide (dealData.requested_launch_date ≠ dealData.approved_rld)
  closeDateChanged || rldChanged

/-- The eight assignments that clear an approval (lines 500-507 and 538-545). -/
def clearApproval (propertiesToUpdate : List Update) : List Update :=
  propertiesToUpdate ++ [
    Update.override_request_status "none",
    Update.override_approved_by "",
    Update.override_approval_date none,
    Update.override_requested_by "",
    Update.override_request_date none,
    Update.rld_override_approval "",
    Update.approved_close_date none,
    Update.approved_rld none]

/-- `updateComplianceAndApproval` (lines 439-556) for a loaded deal (`dealData` not null),
up to the object `propertiesToUpdate` it builds: the assignments in the order they are
made (no property is assigned twice on one path).
`new Date().toISOString().split('T')[0]` is the date string of `dayOf now`. -/
def updateComplianceAndApproval (now : Int) (dealData : DealData) : List Update :=
  let violations := calculateAllCompliance now dealData.closedate
    dealData.requested_launch_date dealData.is_closed dealData.pipeline
  let isCompliant := isCompliant violations
  let primaryViolation := getPrimaryViolation violations
  let datesChangedSinceApproval := datesChangedSinceApproval dealData
  let propertiesToUpdate : List Update := []
  let propertiesToUpdate :=
    if dealData.compliance_status ≠ JSValue.str primaryViolation then
      propertiesToUpdate ++ [Update.compliance_status primaryViolation]
    else propertiesToUpdate
  if datesChangedSinceApproval then
    clearApproval propertiesToUpdate
  else if isCompliant then
    if dealData.override_request_status ≠ JSValue.str "approved" then
      propertiesToUpdate ++ [
        Update.override_request_status "approved",
        Update.override_approved_by "Auto-approved (Compliant)",
        Update.override_approval_date (some (dayOf now)),
        Update.rld_override_approval "Approved",
        Update.approved_close_date dealData.closedate,
        Update.approved_rld dealData.requested_launch_date]
    else propertiesToUpdate
  else
    if dealData.override_request_status = JSValue.str "approved" then
      if dealData.override_approved_by = JSValue.str "Auto-approved (Compliant)" then
        clearApproval propertiesToUpdate
      else propertiesToUpdate
    else propertiesToUpdate

/-- One property of `successfulUpdates` spread over the deal (`{...prev, ...successfulUpdates}`,
lines 580-583). -/
def applyUpdate (dealData : DealData) : Update → DealData
  | Update.compliance_status value => { dealData with compliance_status := JSValue.str value }
  | Update.override_request_status value =>
    { dealData with override_request_status := JSValue.str value }
  | Update.override_approved_by value =>
    { dealData with override_approved_by := JSValue.str value }
  | Update.override_approval_date value => { dealData with override_approval_date := value }
  | Update.override_requested_by value =>
    { dealData with override_requested_by := JSValue.str value }
  | Update.override_request_date value => { dealData with override_request_date := value }
  | Update.rld_override_approval value =>
    { dealData with rld_override_approval := JSValue.str value }
  | Update.approved_close_date value => { dealData with approved_close_date := value }
  | Update.approved_rld value => { dealData with approved_rld := value }

/-- The deal after every update of the set has been applied. -/
def applyUpdates (dealData : DealData) (updates : List Update) : DealData :=
  updates.foldl applyUpdate dealData

/-- `canClose` (lines 1147-1149): the closing gate read from `rld_override_approval`. -/
def canClose (dealData : DealData) : Bool :=
  decide (dealData.rld_override_approval = JSValue.str "Approved") ||
    decide (dealData.rld_override_approval = JSValue.str "Approved with Override")

/-! ## Serverless functions and their caller -/

/-- A JavaScript value as the serverless functions and `checkApprovalPermission` receive
it; numbers are integers (deal and user ids). -/
inductive JSArg where
  | undefined
  | null
  | bool (b : Bool)
  | num (n : Int)
  | str (s : String)
deriving DecidableEq, Repr

/-- Truthiness: what `!x` negates. -/
def JSArg.truthy : JSArg → Bool
  | JSArg.undefined => false
  | JSArg.null => false
  | JSArg.bool b => b
  | JSArg.num n => n != 0
  | JSArg.str s => s != ""

/-- How an `async` function ends: it returns a value, or it throws to its caller (the
promise is rejected) with a message. -/
inductive Completion (α : Type) where
  | returned (value : α)
  | thrown (message : String)
deriving DecidableEq, Repr

/-- A call to the CRM client. -/
inductive CrmCall where
  | update (dealId property value : JSArg)
  | getById (dealId : JSArg) (properties : List String)
deriving DecidableEq, Repr

/-- A run of a serverless function: how it ends and the CRM calls it made. -/
structure Run (α : Type) where
  completion : Completion α
  crmCalls : List CrmCall
deriving DecidableEq, Repr

/-- `context.parameters` of `updateDealProperty`; a missing key is `undefined`. -/
structure UpdateParameters where
  dealId : JSArg
  property : JSArg
  value : JSArg
deriving DecidableEq, Repr

/-- The object `updateDealProperty` returns: its `success` flag and `error` message (the
diagnostic fields are left out). -/
structure UpdateResult where
  success : Bool
  error : Option String
deriving DecidableEq, Repr

/-- `exports.main` of update-deal-property.js (lines 3-95). `parameters` is
`context.parameters`, `none` when the context has no parameters object (`context` defaults
to the empty object); `hasToken` is `!!process.env.PRIVATE_APP_ACCESS_TOKEN`; `update` is
the CRM call `basicApi.update`, which may throw. The destructuring of
`context.parameters` stands before the `try`. -/
def updateDealProperty (hasToken : Bool) (update : JSArg → JSArg → JSArg → Completion Unit)
    (parameters : Option UpdateParameters) : Run UpdateResult :=
  match parameters with
  | none => ⟨Completion.thrown "TypeError: cannot destructure context.parameters", []⟩
  | some ⟨dealId, property, value⟩ =>
    -- try
    if !dealId.truthy then
      ⟨Completion.returned ⟨false, some "Deal ID is required"⟩, []⟩
    else if !property.truthy then
      ⟨Completion.returned ⟨false, some "Property name is required"⟩, []⟩
    else if value = JSArg.undefined ∨ value = JSArg.null then
      ⟨Completion.returned ⟨false, some "Property value is required"⟩, []⟩
    else if !hasToken then
      ⟨Completion.returned ⟨false, some "No access token found"⟩, []⟩
    else
      match update dealId property value with
      | Completion.returned _ =>
        ⟨Completion.returned ⟨true, none⟩, [CrmCall.update dealId property value]⟩
      -- catch (error)
      | Completion.thrown message =>
        ⟨Completion.returned ⟨false, some message⟩, [CrmCall.update dealId property value]⟩

/-- `context.parameters` of `getDealProperties`; `properties` is `none` when falsy. -/
structure GetParameters where
  dealId : JSArg
  properties : Option (List String)
deriving DecidableEq, Repr

/-- The object `getDealProperties` returns: its `success` flag, `error` message and the
deal properties spread into it (the diagnostic fields are left out). -/
structure GetResult where
  success : Bool
  error : Option String
  properties : List (String × JSArg)
deriving DecidableEq, Repr

/-- `exports.main` of get-deal-properties.js (lines 3-87), with `getById` the CRM call
`basicApi.getById`. The token is tested before the deal id. -/
def getDealProperties (hasToken : Bool)
    (getById : JSArg → List String → Completion (List (String × JSArg)))
    (parameters : Option GetParameters) : Run GetResult :=
  match parameters with
  | none => ⟨Completion.thrown "TypeError: cannot destructure context.parameters", []⟩
  | some ⟨dealId, properties⟩ =>
    -- try
    if !hasToken then
      ⟨Completion.returned ⟨false, some "No access token found", []⟩, []⟩
    else if !dealId.truthy then
      ⟨Completion.returned ⟨false, some "Deal ID is required", []⟩, []⟩
    else
      let propertiesToFetch := properties.getD
        ["seat_count___final", "closedate", "requested_launch_date", "pipeline"]
      match getById dealId propertiesToFetch with
      | Completion.returned dealProperties =>
        ⟨Completion.returned ⟨true, none, dealProperties⟩,
          [CrmCall.getById dealId propertiesToFetch]⟩
      -- catch (error)
      | Completion.thrown message =>
        ⟨Completion.returned ⟨false, some message, []⟩,
          [CrmCall.getById dealId propertiesToFetch]⟩

/-- The key of an assignment in `propertiesToUpdate`. -/
def Update.property : Update → String
  | Update.compliance_status _ => "compliance_status"
  | Update.override_request_status _ => "override_request_status"
  | Update.override_approved_by _ => "override_approved_by"
  | Update.override_approval_date _ => "override_approval_date"
  | Update.override_requested_by _ => "override_requested_by"
  | Update.override_request_date _ => "override_request_date"
  | Update.rld_override_approval _ => "rld_override_approval"
  | Update.approved_close_date _ => "approved_close_date"
  | Update.approved_rld _ => "approved_rld"

/-- An entry of the array `updateDealProperties` returns: `{ property, success, result }`
or `{ property, success, error }`. -/
structure UpdateEntry where
  property : String
  success : Bool
  result : Option UpdateResult
  error : Option String
deriving DecidableEq, Repr

/-- `updateDealProperties(runServerless, dealId, properties)` (lines 45-65), the property
map being the list of its entries in order. `runServerless` is the call of the
serverless function `updateDealProperty` for one property: it resolves with the object
the function returned, or it throws. -/
def updateDealProperties (runServerless : JSArg → Update → Completion UpdateResult)
    (dealId : JSArg) (properties : List Update) : List UpdateEntry :=
  properties.foldl (fun results entry =>
    match runServerless dealId entry with
    | Completion.returned result =>
      results ++ [⟨entry.property, true, some result, none⟩]
    | Completion.thrown message =>
      results ++ [⟨entry.property, false, none, some message⟩]) []

/-- `successfulUpdates` (lines 568-576): for each result with `success` set, the
assignment of `propertiesToUpdate` with that key. -/
def successfulUpdates (propertiesToUpdate : List Update) (updateResults : List UpdateEntry) :
    List Update :=
  updateResults.foldl (fun successful result =>
    if result.success then
      match propertiesToUpdate.find? (fun entry => entry.property == result.property) with
      | some entry => successful ++ [entry]
      | none => successful
    else successful) []

/-- The local state after `updateComplianceAndApproval` has sent its updates (lines
559-584): `setDealData` spreads the successful updates over the deal. -/
def localStateAfterUpdate (now : Int) (runServerless : JSArg → Update → Completion UpdateResult)
    (dealId : JSArg) (dealData : DealData) : DealData :=
  let propertiesToUpdate := updateComplianceAndApproval now dealData
  if propertiesToUpdate.length > 0 then
    let updateResults := updateDealProperties runServerless dealId propertiesToUpdate
    applyUpdates dealData (successfulUpdates propertiesToUpdate updateResults)
  else dealData

/-- A team of `user.teams`. -/
structure Team where
  name : String
deriving DecidableEq, Repr

/-- The fields of `context.user` that `checkApprovalPermission` reads; `teams` is `none`
when `user.teams` is missing or not an array. -/
structure User where
  id : JSArg
  teams : Option (List Team)
deriving DecidableEq, Repr

/-- `checkApprovalPermission(user)` (lines 66-102). -/
def checkApprovalPermission (user : User) : Bool :=
  let superAdminUserIds : List JSArg := [JSArg.num 60990003]
  if superAdminUserIds.contains user.id then true
  else
    let allowedTeams : List String := ["Revenue", "IT, Systems & Compliance"]
    match user.teams with
    | some teams =>
      let isInAllowedTeam := teams.any (fun team => allowedTeams.contains team.name)
      if isInAllowedTeam then true else false
    | none => false

/-! ## Auxiliary definitions for the proofs -/

/-- Day numbers of the dates in `FEDERAL_HOLIDAYS`, in the order of the list. -/
def holidayDays : List Int := [
  19723, 19737, 19772, 19870, 19893, 19908, 19968, 20010, 20038, 20055, 20082,
  20089, 20108, 20136, 20234, 20258, 20273, 20332, 20374, 20403, 20419, 20447,
  20454, 20472, 20500, 20598, 20623, 20638, 20703, 20738, 20768, 20783, 20812]

/-- The entry rule 1 pushes. -/
def closeDatePast : Violation := ⟨1, "close_date_past", "Close Date is overdue", "error"⟩

/-- The entry rule 2 pushes. -/
def rldPast : Violation := ⟨2, "rld_past", "RLD is in the past", "error"⟩

/-- The entry rule 3 pushes. -/
def rldBeforeClose : Violation := ⟨3, "rld_before_close", "RLD before Close Date", "error"⟩

/-- The entry rule 4 pushes. -/
def rldTooSoon : Violation := ⟨4, "rld_too_soon", "RLD too soon (less than 4 weeks)", "warning"⟩

/-- The entry rule 5 pushes for a Monday that is a holiday. -/
def rldHoliday : Violation := ⟨5, "rld_holiday", "RLD is on a federal holiday", "warning"⟩

/-- The entry rule 5 pushes for a Tuesday after a Monday that is no holiday. -/
def rldWrongTuesday : Violation :=
  ⟨5, "rld_wrong_day", "RLD should be Monday (Tuesday only if Monday is holiday)", "warning"⟩

/-- The entry rule 5 pushes for a day that is neither Monday nor Tuesday. -/
def rldWrongDay : Violation :=
  ⟨5, "rld_wrong_day", "RLD must be on Monday (or Tuesday if Monday is holiday)", "warning"⟩

/-- The entry rule 6 pushes. -/
def missingData : Violation := ⟨6, "missing_data", "Missing required dates", "warning"⟩

/-- The entry returned when no rule fired. -/
def compliantEntry (pipeline : JSValue) : Violation :=
  ⟨0, "compliant",
    if decide (pipeline = JSValue.str "782785325") then "Expansions pipeline - flexible timing"
    else "All rules compliant", "success"⟩

/-- What rule 1 contributes, in day numbers. -/
def fired1 (now : Int) (closeDate : Option Int) (isClosed : JSValue) : List Violation :=
  match closeDate with
  | some c =>
    if c < dayOf now ∧ isClosed ≠ JSValue.str "true" ∧ isClosed ≠ JSValue.bool true then
      [closeDatePast] else []
  | none => []

/-- What rule 2 contributes, in day numbers. -/
def fired2 (now : Int) (rldDate : Option Int) : List Violation :=
  match rldDate with
  | some d => if d < dayOf now then [rldPast] else []
  | none => []

/-- What rules 3 and 4 contribute, in day numbers. -/
def fired34 (closeDate rldDate : Option Int) (pipeline : JSValue) : List Violation :=
  match closeDate, rldDate with
  | some c, some d =>
    if pipeline = JSValue.str "782785325" then []
    else if d < c then [rldBeforeClose]
    else if d < c + 28 then [rldTooSoon]
    else []
  | _, _ => []

/-- What rule 5 contributes. -/
def fired5 (rldDate : Option Int) (pipeline : JSValue) : List Violation :=
  match rldDate with
  | some d =>
    if pipeline = JSValue.str "782785325" then []
    else if getDay (dateAtNoon d) = 1 then
      if isFederalHoliday (dateAtNoon d) = true then [rldHoliday] else []
    else if getDay (dateAtNoon d) = 2 then
      if isFederalHoliday (dateAtNoon (d - 1)) = true then [] else [rldWrongTuesday]
    else [rldWrongDay]
  | none => []

/-- What rule 6 contributes. -/
def fired6 (closeDate rldDate : Option Int) : List Violation :=
  if closeDate = none ∨ rldDate = none then [missingData] else []

/-- The violations of all rules, in the order they are pushed. -/
def firedRules (now : Int) (closeDate rldDate : Option Int) (isClosed pipeline : JSValue) :
    List Violation :=
  fired1 now closeDate isClosed ++ fired2 now rldDate ++ fired34 closeDate rldDate pipeline ++
    fired5 rldDate pipeline ++ fired6 closeDate rldDate

/-- The suggestion engine's target before the holiday loop: close date + 28 days rolled
forward to a Monday (lines 134-151), for the close date of day number `c`. -/
def rolledTarget (c : Int) : Int :=
  if getDay (addDays (dateAtNoon c) 28) = 0 then addDays (addDays (dateAtNoon c) 28) 1
  else if getDay (addDays (dateAtNoon c) 28) = 1 then addDays (dateAtNoon c) 28
  else addDays (addDays (dateAtNoon c) 28) (8 - getDay (addDays (dateAtNoon c) 28))

/-- The suggestion engine's target after the holiday loop. -/
def freshTarget (c : Int) : Int :=
  if isFederalHoliday (rolledTarget c) = true then addDays (rolledTarget c) 1
  else rolledTarget c

/-- The assignment to `compliance_status`, made when the stored status differs from the
primary violation (lines 485-488). -/
def complianceWrite (now : Int) (dealData : DealData) : List Update :=
  if dealData.compliance_status ≠ JSValue.str (getPrimaryViolation
      (calculateAllCompliance now dealData.closedate dealData.requested_launch_date
        dealData.is_closed dealData.pipeline)) then
    [Update.compliance_status (getPrimaryViolation
      (calculateAllCompliance now dealData.closedate dealData.requested_launch_date
        dealData.is_closed dealData.pipeline))]
  else []

/-- The assignments of the approval branches (lines 494-555). -/
def approvalWrites (now : Int) (dealData : DealData) : List Update :=
  if datesChangedSinceApproval dealData = true then clearApproval []
  else if isCompliant (calculateAllCompliance now dealData.closedate
      dealData.requested_launch_date dealData.is_closed dealData.pipeline) = true then
    if dealData.override_request_status ≠ JSValue.str "approved" then
      [Update.override_request_status "approved",
        Update.override_approved_by "Auto-approved (Compliant)",
        Update.override_approval_date (some (dayOf now)),
        Update.rld_override_approval "Approved",
        Update.approved_close_date dealData.closedate,
        Update.approved_rld dealData.requested_launch_date]
    else []
  else if dealData.override_request_status = JSValue.str "approved" ∧
      dealData.override_approved_by = JSValue.str "Auto-approved (Compliant)" then
    clearApproval []
  else []

/-- An approved deal without a snapshot of its dates: the close date differs from the
empty `approved_close_date`. -/
def approvedWithoutSnapshot : DealData :=
  { closedate := some 20241, requested_launch_date := some 20269,
    is_closed := JSValue.str "false", pipeline := JSValue.str "default",
    compliance_status := JSValue.str "compliant",
    override_request_status := JSValue.str "approved",
    override_requested_by := JSValue.str "", override_request_date := none,
    override_approved_by := JSValue.str "Jane Manager", override_approval_date := some 20230,
    rld_override_approval := JSValue.str "Approved with Override",
    approved_close_date := none, approved_rld := none }

/-- A deal approved by a manager with close date 2025-01-01 recorded, whose close date is
now 2025-02-01. -/
def driftedDeal : DealData :=
  { closedate := some 20120, requested_launch_date := some 20150,
    is_closed := JSValue.str "false", pipeline := JSValue.str "default",
    compliance_status := JSValue.str "rld_wrong_day",
    override_request_status := JSValue.str "approved",
    override_requested_by := JSValue.str "Sam Seller", override_request_date := some 20085,
    override_approved_by := JSValue.str "Jane Manager", override_approval_date := some 20086,
    rld_override_approval := JSValue.str "Approved with Override",
    approved_close_date := some 20089, approved_rld := some 20150 }

/-- A compliant deal that has no approval yet. -/
def compliantUnapproved : DealData :=
  { closedate := some 20241, requested_launch_date := some 20269,
    is_closed := JSValue.str "false", pipeline := JSValue.str "default",
    compliance_status := JSValue.str "rld_too_soon",
    override_request_status := JSValue.str "none",
    override_requested_by := JSValue.str "", override_request_date := none,
    override_approved_by := JSValue.str "", override_approval_date := none,
    rld_override_approval := JSValue.str "",
    approved_close_date := none, approved_rld := none }

/-- A deal whose RLD is a Wednesday, approved with the dates it still has, by `actor`. -/
def wednesdayApproved (actor : String) : DealData :=
  { closedate := some 20241, requested_launch_date := some 20313,
    is_closed := JSValue.str "false", pipeline := JSValue.str "default",
    compliance_status := JSValue.str "compliant",
    override_request_status := JSValue.str "approved",
    override_requested_by := JSValue.str "Sam Seller", override_request_date := some 20190,
    override_approved_by := JSValue.str actor, override_approval_date := some 20191,
    rld_override_approval := JSValue.str "Approved",
    approved_close_date := some 20241, approved_rld := some 20313 }

/-- A deal approved with close date 2025-01-01 recorded, whose dates, changed since, are
compliant. -/
def driftedCompliant : DealData :=
  { closedate := some 20241, requested_launch_date := some 20269,
    is_closed := JSValue.str "false", pipeline := JSValue.str "default",
    compliance_status := JSValue.str "compliant",
    override_request_status := JSValue.str "approved",
    override_requested_by := JSValue.str "Sam Seller", override_request_date := some 20085,
    override_approved_by := JSValue.str "Jane Manager", override_approval_date := some 20086,
    rld_override_approval := JSValue.str "Approved with Override",
    approved_close_date := some 20089, approved_rld := some 20269 }

/-! ## Dates -/

theorem dayOf_dateAtNoon (n : Int) : dayOf (dateAtNoon n) = n := by
  simp only [dayOf, dateAtNoon, msPerDay]; omega

theorem addDays_dateAtNoon (n k : Int) : addDays (dateAtNoon n) k = dateAtNoon (n + k) := by
  simp only [addDays, dateAtNoon, msPerDay]; ring

theorem dateAtNoon_lt (a b : Int) : dateAtNoon a < dateAtNoon b ↔ a < b := by
  simp only [dateAtNoon, msPerDay]; omega

theorem dateAtNoon_le (a b : Int) : dateAtNoon a ≤ dateAtNoon b ↔ a ≤ b := by
  simp only [dateAtNoon, msPerDay]; omega

theorem midnight_lt (c now : Int) :
    setHoursMidnight (dateAtNoon c) < setHoursMidnight now ↔ c < dayOf now := by
  simp only [setHoursMidnight, dateAtNoon, dayOf, msPerDay]; omega

theorem getDay_dateAtNoon (n : Int) : getDay (dateAtNoon n) = (n + 4) % 7 := by
  rw [getDay, dayOf_dateAtNoon]

/-! ## The holiday list -/

theorem holidays_zip :
    FEDERAL_HOLIDAYS.zip holidayDays = holidayDays.map (fun n => (civilOfDay n, n)) := by
  decide

set_option maxHeartbeats 1000000 in
/-- Each date of `FEDERAL_HOLIDAYS` is the date of one day only. -/
theorem civilOfDay_holiday_unique (p : ISODate × Int)
    (hp : p ∈ FEDERAL_HOLIDAYS.zip holidayDays) (n : Int) (h : civilOfDay n = p.1) :
    n = p.2 := by
  simp only [FEDERAL_HOLIDAYS, holidayDays, List.zip_cons_cons, List.zip_nil_right,
    List.mem_cons, List.mem_singleton, List.not_mem_nil, or_false] at hp
  casesm* _ ∨ _ <;>
    · subst_vars
      simp only [civilOfDay, ISODate.mk.injEq] at h
      obtain ⟨h1, h2, h3⟩ := h
      split_ifs at h1 h2 <;> omega

theorem civilOfDay_mem_holidays (n : Int) :
    civilOfDay n ∈ FEDERAL_HOLIDAYS ↔ n ∈ holidayDays := by
  constructor
  · intro h
    have hz : ∃ k, (civilOfDay n, k) ∈ FEDERAL_HOLIDAYS.zip holidayDays := by
      have hl : FEDERAL_HOLIDAYS = (FEDERAL_HOLIDAYS.zip holidayDays).map Prod.fst := by decide
      rw [hl, List.mem_map] at h
      obtain ⟨⟨a, k⟩, hak, rfl⟩ := h
      exact ⟨k, hak⟩
    obtain ⟨k, hk⟩ := hz
    have hn := civilOfDay_holiday_unique _ hk n rfl
    have hk' : k ∈ holidayDays := by
      rw [holidays_zip, List.mem_map] at hk
      obtain ⟨m, hm, hmk⟩ := hk
      rw [Prod.mk.injEq] at hmk
      rw [← hmk.2]; exact hm
    rw [hn]; exact hk'
  · intro h
    have : (civilOfDay n, n) ∈ FEDERAL_HOLIDAYS.zip holidayDays := by
      rw [holidays_zip]
      exact List.mem_map.2 ⟨n, h, rfl⟩
    exact (List.of_mem_zip this).1

theorem isFederalHoliday_iff (t : Int) : isFederalHoliday t = true ↔ dayOf t ∈ holidayDays := by
  rw [← civilOfDay_mem_holidays]
  simp [isFederalHoliday, toISODateString]

theorem dayOf_addDays (t k : Int) : dayOf (addDays t k) = dayOf t + k := by
  simp only [dayOf, addDays, msPerDay]; omega

theorem getDay_addDays (t k : Int) : getDay (addDays t k) = (getDay t + k) % 7 := by
  simp only [getDay, dayOf_addDays]; omega

theorem addDays_addDays (t j k : Int) : addDays (addDays t j) k = addDays t (j + k) := by
  simp only [addDays]; ring

theorem addDays_zero (t : Int) : addDays t 0 = t := by
  simp [addDays]

/-- No holiday of the list is followed by another one. -/
theorem not_isFederalHoliday_next (t : Int) (h : isFederalHoliday t = true) :
    isFederalHoliday (addDays t 1) = false := by
  rw [isFederalHoliday_iff] at h
  rw [← Bool.not_eq_true, isFederalHoliday_iff, dayOf_addDays]
  have key : ∀ x ∈ holidayDays, x + 1 ∉ holidayDays := by decide
  exact key _ h

/-- The holiday loop ends after at most one step. -/
theorem holidayLoop_loopFuel (t : Int) :
    holidayLoop loopFuel t = some (if isFederalHoliday t = true then addDays t 1 else t) := by
  have hf : loopFuel = 32 + 1 + 1 := by decide
  rw [hf, holidayLoop]
  by_cases h : isFederalHoliday t = true
  · rw [if_pos h, if_pos h, holidayLoop, not_isFederalHoliday_next t h]
    simp
  · rw [if_neg h, if_neg h]

/-! ## The evaluator in rule-by-rule form -/

theorem fired1_cases (now : Int) (closeDate : Option Int) (isClosed : JSValue) :
    fired1 now closeDate isClosed = [] ∨ fired1 now closeDate isClosed = [closeDatePast] := by
  unfold fired1; split <;> [split_ifs; skip] <;> simp

theorem fired2_cases (now : Int) (rldDate : Option Int) :
    fired2 now rldDate = [] ∨ fired2 now rldDate = [rldPast] := by
  unfold fired2; split <;> [split_ifs; skip] <;> simp

theorem fired34_cases (closeDate rldDate : Option Int) (pipeline : JSValue) :
    fired34 closeDate rldDate pipeline = [] ∨ fired34 closeDate rldDate pipeline = [rldBeforeClose] ∨
      fired34 closeDate rldDate pipeline = [rldTooSoon] := by
  unfold fired34; split <;> [split_ifs; skip] <;> simp

theorem fired5_cases (rldDate : Option Int) (pipeline : JSValue) :
    fired5 rldDate pipeline = [] ∨ fired5 rldDate pipeline = [rldHoliday] ∨
      fired5 rldDate pipeline = [rldWrongTuesday] ∨ fired5 rldDate pipeline = [rldWrongDay] := by
  unfold fired5; split <;> [split_ifs; skip] <;> simp

theorem fired6_cases (closeDate rldDate : Option Int) :
    fired6 closeDate rldDate = [] ∨ fired6 closeDate rldDate = [missingData] := by
  unfold fired6; split_ifs <;> simp

theorem firedRules_sorted (now : Int) (closeDate rldDate : Option Int)
    (isClosed pipeline : JSValue) :
    (firedRules now closeDate rldDate isClosed pipeline).Sorted
      (fun a b => a.priority ≤ b.priority) := by
  unfold firedRules
  rcases fired1_cases now closeDate isClosed with h1 | h1 <;>
  rcases fired2_cases now rldDate with h2 | h2 <;>
  rcases fired34_cases closeDate rldDate pipeline with h3 | h3 | h3 <;>
  rcases fired5_cases rldDate pipeline with h5 | h5 | h5 | h5 <;>
  rcases fired6_cases closeDate rldDate with h6 | h6 <;>
  rw [h1, h2, h3, h5, h6] <;> decide

theorem sortByPriority_firedRules (now : Int) (closeDate rldDate : Option Int)
    (isClosed pipeline : JSValue) :
    sortByPriority (firedRules now closeDate rldDate isClosed pipeline) =
      firedRules now closeDate rldDate isClosed pipeline :=
  List.Sorted.insertionSort_eq (firedRules_sorted now closeDate rldDate isClosed pipeline)

theorem pushRule1_eq (now : Int) (closeDate : Option Int) (isClosed : JSValue)
    (violations : List Violation) :
    pushRule1 (setHoursMidnight now) closeDate isClosed violations =
      violations ++ fired1 now closeDate isClosed := by
  rcases closeDate with _ | c <;> simp only [pushRule1, fired1, parseDate, midnight_lt]
  · simp
  · split_ifs <;> simp [closeDatePast]

theorem pushRule2_eq (now : Int) (rldDate : Option Int) (violations : List Violation) :
    pushRule2 (setHoursMidnight now) rldDate violations = violations ++ fired2 now rldDate := by
  rcases rldDate with _ | d <;> simp only [pushRule2, fired2, parseDate, midnight_lt]
  · simp
  · split_ifs <;> simp [rldPast]

theorem pushRule34_eq (closeDate rldDate : Option Int) (pipeline : JSValue)
    (violations : List Violation) :
    pushRule34 (decide (pipeline = JSValue.str "782785325")) closeDate rldDate violations =
      violations ++ fired34 closeDate rldDate pipeline := by
  by_cases hp : pipeline = JSValue.str "782785325" <;>
  rcases closeDate with _ | c <;> rcases rldDate with _ | d <;>
  simp only [pushRule34, fired34, parseDate, addDays_dateAtNoon, dateAtNoon_lt, hp,
    decide_True, decide_False, if_true, if_false, List.append_nil]
  split_ifs <;> simp [rldBeforeClose, rldTooSoon]

theorem pushRule5_eq (rldDate : Option Int) (pipeline : JSValue)
    (violations : List Violation) :
    pushRule5 (decide (pipeline = JSValue.str "782785325")) rldDate violations =
      violations ++ fired5 rldDate pipeline := by
  by_cases hp : pipeline = JSValue.str "782785325" <;>
  rcases rldDate with _ | d <;>
  simp only [pushRule5, fired5, parseDate, addDays_dateAtNoon, hp,
    decide_True, decide_False, if_true, if_false, List.append_nil, decide_eq_true_eq,
    Bool.not_eq_true', Int.add_neg_one]
  split_ifs <;> simp_all [rldHoliday, rldWrongTuesday, rldWrongDay]

theorem pushRule6_eq (closeDate rldDate : Option Int) (violations : List Violation) :
    pushRule6 closeDate rldDate violations = violations ++ fired6 closeDate rldDate := by
  rcases closeDate with _ | c <;> rcases rldDate with _ | d <;> simp [pushRule6, fired6, missingData]

/-- The evaluator returns the compliant entry when no rule fired, and otherwise the
fired rules in the order they were pushed: the sort moves nothing. -/
theorem calculateAllCompliance_eq (now : Int) (closeDate rldDate : Option Int)
    (isClosed pipeline : JSValue) :
    calculateAllCompliance now closeDate rldDate isClosed pipeline =
      if firedRules now closeDate rldDate isClosed pipeline = [] then [compliantEntry pipeline]
      else firedRules now closeDate rldDate isClosed pipeline := by
  simp only [calculateAllCompliance, pushRule1_eq, pushRule2_eq, pushRule34_eq, pushRule5_eq,
    pushRule6_eq, List.nil_append, List.length_eq_zero]
  rw [show fired1 now closeDate isClosed ++ fired2 now rldDate ++
      fired34 closeDate rldDate pipeline ++ fired5 rldDate pipeline ++ fired6 closeDate rldDate =
      firedRules now closeDate rldDate isClosed pipeline from rfl, sortByPriority_firedRules]
  rfl

/-! ## Which entries the evaluator returns -/

theorem mem_firedRules (now : Int) (closeDate rldDate : Option Int)
    (isClosed pipeline : JSValue) (v : Violation) :
    v ∈ firedRules now closeDate rldDate isClosed pipeline ↔
      v ∈ fired1 now closeDate isClosed ∨ v ∈ fired2 now rldDate ∨
      v ∈ fired34 closeDate rldDate pipeline ∨ v ∈ fired5 rldDate pipeline ∨
      v ∈ fired6 closeDate rldDate := by
  simp only [firedRules, List.mem_append, or_assoc]

theorem mem_fired1 (now : Int) (closeDate : Option Int) (isClosed : JSValue) (v : Violation) :
    v ∈ fired1 now closeDate isClosed ↔
      v = closeDatePast ∧ ∃ c, closeDate = some c ∧ c < dayOf now ∧
        isClosed ≠ JSValue.bool true ∧ isClosed ≠ JSValue.str "true" := by
  rcases closeDate with _ | c
  · simp [fired1]
  · simp only [fired1]
    split_ifs with h
    · simp [h.1, h.2.1, h.2.2]
    · simp only [List.not_mem_nil, Option.some.injEq, exists_eq_left', false_iff]
      tauto

theorem mem_fired2 (now : Int) (rldDate : Option Int) (v : Violation) :
    v ∈ fired2 now rldDate ↔ v = rldPast ∧ ∃ d, rldDate = some d ∧ d < dayOf now := by
  rcases rldDate with _ | d
  · simp [fired2]
  · simp only [fired2]
    split_ifs with h <;> simp [h]

theorem mem_fired34 (closeDate rldDate : Option Int) (pipeline : JSValue) (v : Violation) :
    v ∈ fired34 closeDate rldDate pipeline ↔
      pipeline ≠ JSValue.str "782785325" ∧ ∃ c d, closeDate = some c ∧ rldDate = some d ∧
        ((v = rldBeforeClose ∧ d < c) ∨ (v = rldTooSoon ∧ c ≤ d ∧ d < c + 28)) := by
  rcases closeDate with _ | c
  · simp [fired34]
  rcases rldDate with _ | d
  · simp [fired34]
  simp only [fired34, Option.some.injEq, exists_and_left, exists_eq_left', ne_eq]
  split_ifs with h1 h2 h3
  · simp [h1]
  · simp only [List.mem_singleton, h1, not_false_eq_true, true_and]
    constructor
    · intro h; exact Or.inl ⟨h, h2⟩
    · rintro (h | h)
      · exact h.1
      · omega
  · simp only [List.mem_singleton, h1, not_false_eq_true, true_and]
    constructor
    · intro h; exact Or.inr ⟨h, by omega, h3⟩
    · rintro (h | h)
      · omega
      · exact h.1
  · simp only [List.not_mem_nil, h1, not_false_eq_true, true_and, false_iff]
    rintro (h | h) <;> omega

theorem mem_fired5 (rldDate : Option Int) (pipeline : JSValue) (v : Violation) :
    v ∈ fired5 rldDate pipeline ↔
      pipeline ≠ JSValue.str "782785325" ∧ ∃ d, rldDate = some d ∧
        ((v = rldHoliday ∧ getDay (dateAtNoon d) = 1 ∧ isFederalHoliday (dateAtNoon d) = true) ∨
         (v = rldWrongTuesday ∧ getDay (dateAtNoon d) = 2 ∧
            isFederalHoliday (dateAtNoon (d - 1)) = false) ∨
         (v = rldWrongDay ∧ getDay (dateAtNoon d) ≠ 1 ∧ getDay (dateAtNoon d) ≠ 2)) := by
  rcases rldDate with _ | d
  · simp [fired5]
  · simp only [fired5]
    split_ifs with h1 h2 h3 h4 h5 <;> simp_all

theorem mem_fired6 (closeDate rldDate : Option Int) (v : Violation) :
    v ∈ fired6 closeDate rldDate ↔ v = missingData ∧ (closeDate = none ∨ rldDate = none) := by
  simp only [fired6]
  split_ifs with h <;> simp [h]

theorem mem_calculateAllCompliance (now : Int) (closeDate rldDate : Option Int)
    (isClosed pipeline : JSValue) (v : Violation) :
    v ∈ calculateAllCompliance now closeDate rldDate isClosed pipeline ↔
      (firedRules now closeDate rldDate isClosed pipeline = [] ∧ v = compliantEntry pipeline) ∨
      v ∈ firedRules now closeDate rldDate isClosed pipeline := by
  rw [calculateAllCompliance_eq]
  split_ifs with h <;> simp [h]

/-- An entry of priority 1 or more is in the result exactly when its rule pushed it. -/
theorem exists_priority_iff (now : Int) (closeDate rldDate : Option Int)
    (isClosed pipeline : JSValue) (p : Nat) (hp : 0 < p) :
    (∃ v ∈ calculateAllCompliance now closeDate rldDate isClosed pipeline, v.priority = p) ↔
      ∃ v ∈ firedRules now closeDate rldDate isClosed pipeline, v.priority = p := by
  constructor
  · rintro ⟨v, hv, hpv⟩
    rcases (mem_calculateAllCompliance ..).1 hv with ⟨-, rfl⟩ | h
    · simp [compliantEntry] at hpv; omega
    · exact ⟨v, h, hpv⟩
  · rintro ⟨v, hv, hpv⟩
    exact ⟨v, (mem_calculateAllCompliance ..).2 (Or.inr hv), hpv⟩

theorem mem_firedRules_cases (now : Int) (closeDate rldDate : Option Int)
    (isClosed pipeline : JSValue) (v : Violation)
    (hv : v ∈ firedRules now closeDate rldDate isClosed pipeline) :
    v = closeDatePast ∨ v = rldPast ∨ v = rldBeforeClose ∨ v = rldTooSoon ∨ v = rldHoliday ∨
      v = rldWrongTuesday ∨ v = rldWrongDay ∨ v = missingData := by
  rw [mem_firedRules, mem_fired1, mem_fired2, mem_fired34, mem_fired5, mem_fired6] at hv
  rcases hv with h | h | ⟨-, c, d, -, -, h | h⟩ | ⟨-, d, -, h | h | h⟩ | h <;> simp [h.1]

/-! ## Claims on the compliance evaluator -/

/-- C1: for every input, `calculateAllCompliance` returns either a list of exactly one
entry, of type "compliant" and priority 0, or a non-empty list with no "compliant" entry
whose priorities are in ascending order. -/
theorem calculateAllCompliance_compliant_or_sorted (now : Int) (closeDate rldDate : Option Int)
    (isClosed pipeline : JSValue) :
    (∃ v, calculateAllCompliance now closeDate rldDate isClosed pipeline = [v] ∧
        v.type = "compliant" ∧ v.priority = 0) ∨
    (calculateAllCompliance now closeDate rldDate isClosed pipeline ≠ [] ∧
      (∀ v ∈ calculateAllCompliance now closeDate rldDate isClosed pipeline,
        v.type ≠ "compliant") ∧
      ((calculateAllCompliance now closeDate rldDate isClosed pipeline).map
        Violation.priority).Sorted (fun a b => a ≤ b)) := by
  rw [calculateAllCompliance_eq]
  split_ifs with h
  · exact Or.inl ⟨compliantEntry pipeline, rfl, rfl, rfl⟩
  · refine Or.inr ⟨h, ?_, ?_⟩
    · intro v hv
      rcases mem_firedRules_cases _ _ _ _ _ v hv with h | h | h | h | h | h | h | h <;>
        subst h <;> decide
    · exact (List.pairwise_map).2 (firedRules_sorted now closeDate rldDate isClosed pipeline)

theorem fired_singleton_ne_nil (p : Prop) [Decidable p] (v : Violation) :
    (if p then [v] else []) = [] ↔ ¬p := by
  split_ifs with h <;> simp [h]

theorem firedRules_eq_nil_iff (now : Int) (closeDate rldDate : Option Int)
    (isClosed pipeline : JSValue) :
    firedRules now closeDate rldDate isClosed pipeline = [] ↔
      ∃ c d, closeDate = some c ∧ rldDate = some d ∧
        (dayOf now ≤ c ∨ isClosed = JSValue.bool true ∨ isClosed = JSValue.str "true") ∧
        dayOf now ≤ d ∧
        (pipeline = JSValue.str "782785325" ∨
          (c + 28 ≤ d ∧
            ((getDay (dateAtNoon d) = 1 ∧ isFederalHoliday (dateAtNoon d) = false) ∨
             (getDay (dateAtNoon d) = 2 ∧ isFederalHoliday (dateAtNoon (d - 1)) = true)))) := by
  rcases closeDate with _ | c
  · simp [firedRules, fired6]
  rcases rldDate with _ | d
  · simp [firedRules, fired6]
  simp only [firedRules, fired1, fired2, fired34, fired5, fired6, List.append_eq_nil,
    Option.some.injEq, exists_and_left, exists_eq_left', fired_singleton_ne_nil,
    reduceCtorEq, or_self, if_false, and_true]
  by_cases hp : pipeline = JSValue.str "782785325"
  · simp only [hp, if_true, and_true, true_or]
    constructor
    · rintro ⟨h1, h2⟩
      refine ⟨?_, by omega⟩
      by_cases hc : c < dayOf now
      · by_cases hb : isClosed = JSValue.bool true
        · exact Or.inr (Or.inl hb)
        · by_cases hs : isClosed = JSValue.str "true"
          · exact Or.inr (Or.inr hs)
          · exact absurd ⟨hc, hs, hb⟩ h1
      · exact Or.inl (by omega)
    · rintro ⟨h1, h2⟩
      refine ⟨?_, by omega⟩
      rintro ⟨hc, hs, hb⟩
      rcases h1 with h | h | h
      · omega
      · exact hb h
      · exact hs h
  · simp only [hp, if_false, false_or]
    constructor
    · rintro ⟨⟨⟨h1, h2⟩, h3⟩, h5⟩
      refine ⟨?_, by omega, ?_, ?_⟩
      · by_cases hc : c < dayOf now
        · by_cases hb : isClosed = JSValue.bool true
          · exact Or.inr (Or.inl hb)
          · by_cases hs : isClosed = JSValue.str "true"
            · exact Or.inr (Or.inr hs)
            · exact absurd ⟨hc, hs, hb⟩ h1
        · exact Or.inl (by omega)
      · split_ifs at h3
        omega
      · split_ifs at h5 <;> simp_all
    · rintro ⟨h1, h2, h3, h5⟩
      refine ⟨⟨⟨?_, by omega⟩, ?_⟩, ?_⟩
      · rintro ⟨hc, hs, hb⟩
        rcases h1 with h | h | h
        · omega
        · exact hb h
        · exact hs h
      · rw [if_neg (by omega), if_neg (by omega)]
      · rcases h5 with ⟨h, h'⟩ | ⟨h, h'⟩
        · simp [h, h']
        · simp [h, h']

/-- C2: `calculateAllCompliance` returns the single "compliant" entry if and only if both
dates are present, the close date is not before today or the deal is closed, the RLD is
not before today, and either the pipeline is the Expansions id or the RLD is at least 28
days after the close date and is a non-holiday Monday or a Tuesday whose preceding Monday
is a federal holiday. -/
theorem calculateAllCompliance_compliant_iff (now : Int) (closeDate rldDate : Option Int)
    (isClosed pipeline : JSValue) :
    (∃ message, calculateAllCompliance now closeDate rldDate isClosed pipeline =
        [⟨0, "compliant", message, "success"⟩]) ↔
      ∃ c d, closeDate = some c ∧ rldDate = some d ∧
        (dayOf now ≤ c ∨ isClosed = JSValue.bool true ∨ isClosed = JSValue.str "true") ∧
        dayOf now ≤ d ∧
        (pipeline = JSValue.str "782785325" ∨
          (c + 28 ≤ d ∧
            ((getDay (dateAtNoon d) = 1 ∧ isFederalHoliday (dateAtNoon d) = false) ∨
             (getDay (dateAtNoon d) = 2 ∧ isFederalHoliday (dateAtNoon (d - 1)) = true)))) := by
  rw [← firedRules_eq_nil_iff, calculateAllCompliance_eq]
  split_ifs with h
  · simp only [h, iff_true]
    exact ⟨_, rfl⟩
  · simp only [h, iff_false, not_exists]
    intro m hm
    have hv : (⟨0, "compliant", m, "success"⟩ : Violation) ∈
        firedRules now closeDate rldDate isClosed pipeline := by rw [hm]; simp
    rcases mem_firedRules_cases _ _ _ _ _ _ hv with h | h | h | h | h | h | h | h <;>
      simp [closeDatePast, rldPast, rldBeforeClose, rldTooSoon, rldHoliday, rldWrongTuesday,
        rldWrongDay, missingData] at h

/-- C3: the result contains a priority-1 entry exactly when the close date is present, its
day is strictly before today and the closed flag is neither `true` nor "true", whatever
the RLD and the pipeline are; a priority-1 entry has type "close_date_past" and severity
"error". -/
theorem close_date_past_iff (now : Int) (closeDate rldDate : Option Int)
    (isClosed pipeline : JSValue) :
    ((∃ v ∈ calculateAllCompliance now closeDate rldDate isClosed pipeline, v.priority = 1) ↔
      ∃ c, closeDate = some c ∧ c < dayOf now ∧
        isClosed ≠ JSValue.bool true ∧ isClosed ≠ JSValue.str "true") ∧
    (∀ v ∈ calculateAllCompliance now closeDate rldDate isClosed pipeline, v.priority = 1 →
      v.type = "close_date_past" ∧ v.severity = "error") := by
  constructor
  · rw [exists_priority_iff _ _ _ _ _ 1 (by decide)]
    constructor
    · rintro ⟨v, hv, hp⟩
      rw [mem_firedRules, mem_fired1, mem_fired2, mem_fired34, mem_fired5, mem_fired6] at hv
      rcases hv with h | h | ⟨-, c, d, -, -, h | h⟩ | ⟨-, d, -, h | h | h⟩ | h
      · exact h.2
      all_goals (rw [h.1] at hp; exact absurd hp (by decide))
    · intro h
      exact ⟨closeDatePast, (mem_firedRules ..).2 (Or.inl ((mem_fired1 ..).2 ⟨rfl, h⟩)), rfl⟩
  · intro v hv hp
    rcases (mem_calculateAllCompliance ..).1 hv with ⟨-, rfl⟩ | h
    · revert hp; simp [compliantEntry]
    · rcases mem_firedRules_cases _ _ _ _ _ v h with h | h | h | h | h | h | h | h <;>
        subst h <;> revert hp <;> decide

/-- C4: the result contains a priority-2 entry exactly when the RLD is present and its day
is strictly before today, whatever the pipeline is; a priority-2 entry has type "rld_past"
and severity "error"; an RLD equal to today does not fire it. -/
theorem rld_past_iff (now : Int) (closeDate rldDate : Option Int)
    (isClosed pipeline : JSValue) :
    ((∃ v ∈ calculateAllCompliance now closeDate rldDate isClosed pipeline, v.priority = 2) ↔
      ∃ d, rldDate = some d ∧ d < dayOf now) ∧
    (∀ v ∈ calculateAllCompliance now closeDate rldDate isClosed pipeline, v.priority = 2 →
      v.type = "rld_past" ∧ v.severity = "error") ∧
    ¬ ∃ v ∈ calculateAllCompliance now closeDate (some (dayOf now)) isClosed pipeline,
      v.priority = 2 := by
  have key : ∀ rd : Option Int,
      (∃ v ∈ calculateAllCompliance now closeDate rd isClosed pipeline, v.priority = 2) ↔
        ∃ d, rd = some d ∧ d < dayOf now := by
    intro rd
    rw [exists_priority_iff _ _ _ _ _ 2 (by decide)]
    constructor
    · rintro ⟨v, hv, hp⟩
      rw [mem_firedRules, mem_fired1, mem_fired2, mem_fired34, mem_fired5, mem_fired6] at hv
      rcases hv with h | h | ⟨-, c, d, -, -, h | h⟩ | ⟨-, d, -, h | h | h⟩ | h
      · rw [h.1] at hp; exact absurd hp (by decide)
      · exact h.2
      all_goals (rw [h.1] at hp; exact absurd hp (by decide))
    · intro h
      exact ⟨rldPast,
        (mem_firedRules ..).2 (Or.inr (Or.inl ((mem_fired2 ..).2 ⟨rfl, h⟩))), rfl⟩
  refine ⟨key rldDate, ?_, ?_⟩
  · intro v hv hp
    rcases (mem_calculateAllCompliance ..).1 hv with ⟨-, rfl⟩ | h
    · revert hp; simp [compliantEntry]
    · rcases mem_firedRules_cases _ _ _ _ _ v h with h | h | h | h | h | h | h | h <;>
        subst h <;> revert hp <;> decide
  · rw [key]
    rintro ⟨d, hd, hlt⟩
    rw [Option.some.injEq] at hd
    omega

/-- C8: the result contains a priority-6 entry exactly when the close date or the RLD is
missing, for every pipeline; a priority-6 entry has type "missing_data" and severity
"warning". -/
theorem missing_data_iff (now : Int) (closeDate rldDate : Option Int)
    (isClosed pipeline : JSValue) :
    ((∃ v ∈ calculateAllCompliance now closeDate rldDate isClosed pipeline, v.priority = 6) ↔
      (closeDate = none ∨ rldDate = none)) ∧
    (∀ v ∈ calculateAllCompliance now closeDate rldDate isClosed pipeline, v.priority = 6 →
      v.type = "missing_data" ∧ v.severity = "warning") := by
  constructor
  · rw [exists_priority_iff _ _ _ _ _ 6 (by decide)]
    constructor
    · rintro ⟨v, hv, hp⟩
      rw [mem_firedRules, mem_fired1, mem_fired2, mem_fired34, mem_fired5, mem_fired6] at hv
      rcases hv with h | h | ⟨-, c, d, -, -, h | h⟩ | ⟨-, d, -, h | h | h⟩ | h
      · rw [h.1] at hp; exact absurd hp (by decide)
      · rw [h.1] at hp; exact absurd hp (by decide)
      · rw [h.1] at hp; exact absurd hp (by decide)
      · rw [h.1] at hp; exact absurd hp (by decide)
      · rw [h.1] at hp; exact absurd hp (by decide)
      · rw [h.1] at hp; exact absurd hp (by decide)
      · rw [h.1] at hp; exact absurd hp (by decide)
      · exact h.2
    · intro h
      exact ⟨missingData, (mem_firedRules ..).2
        (Or.inr (Or.inr (Or.inr (Or.inr ((mem_fired6 ..).2 ⟨rfl, h⟩))))), rfl⟩
  · intro v hv hp
    rcases (mem_calculateAllCompliance ..).1 hv with ⟨-, rfl⟩ | h
    · revert hp; simp [compliantEntry]
    · rcases mem_firedRules_cases _ _ _ _ _ v h with h | h | h | h | h | h | h | h <;>
        subst h <;> revert hp <;> decide

/-- C7: with the Expansions pipeline id the result holds only entries of priority 0, 1, 2
or 6, and none of type "rld_before_close", "rld_too_soon", "rld_wrong_day" or
"rld_holiday"; for instance an RLD on Wednesday 2025-06-04, before the close date
2025-06-11, is compliant. -/
theorem expansions_skips_timing_rules (now : Int) (closeDate rldDate : Option Int)
    (isClosed : JSValue) :
    (∀ v ∈ calculateAllCompliance now closeDate rldDate isClosed (JSValue.str "782785325"),
      (v.priority = 0 ∨ v.priority = 1 ∨ v.priority = 2 ∨ v.priority = 6) ∧
      v.type ≠ "rld_before_close" ∧ v.type ≠ "rld_too_soon" ∧ v.type ≠ "rld_wrong_day" ∧
      v.type ≠ "rld_holiday") ∧
    getDay (dateAtNoon 20243) = 3 ∧
    calculateAllCompliance (dateAtNoon 20200) (some 20250) (some 20243) isClosed
        (JSValue.str "782785325") =
      [⟨0, "compliant", "Expansions pipeline - flexible timing", "success"⟩] := by
  refine ⟨?_, by decide, ?_⟩
  · intro v hv
    rcases (mem_calculateAllCompliance ..).1 hv with ⟨-, rfl⟩ | h
    · decide
    · rw [mem_firedRules, mem_fired1, mem_fired2, mem_fired34, mem_fired5, mem_fired6] at h
      rcases h with h | h | ⟨hne, -⟩ | ⟨hne, -⟩ | h
      · rw [h.1]; decide
      · rw [h.1]; decide
      · exact absurd rfl hne
      · exact absurd rfl hne
      · rw [h.1]; decide
  · rw [calculateAllCompliance_eq]
    have : firedRules (dateAtNoon 20200) (some 20250) (some 20243) isClosed
        (JSValue.str "782785325") = [] := by
      rw [firedRules_eq_nil_iff]
      exact ⟨20250, 20243, rfl, rfl, Or.inl (by decide), by decide, Or.inl rfl⟩
    rw [if_pos this]
    rfl

theorem priority_of_mem (now : Int) (closeDate rldDate : Option Int)
    (isClosed pipeline : JSValue) (v : Violation)
    (hv : v ∈ calculateAllCompliance now closeDate rldDate isClosed pipeline) :
    v = compliantEntry pipeline ∨ v = closeDatePast ∨ v = rldPast ∨ v = rldBeforeClose ∨
      v = rldTooSoon ∨ v = rldHoliday ∨ v = rldWrongTuesday ∨ v = rldWrongDay ∨
      v = missingData := by
  rcases (mem_calculateAllCompliance ..).1 hv with ⟨-, h⟩ | h
  · exact Or.inl h
  · exact Or.inr (mem_firedRules_cases _ _ _ _ _ v h)

theorem exists_priority3_iff (now : Int) (closeDate rldDate : Option Int)
    (isClosed pipeline : JSValue) :
    (∃ v ∈ calculateAllCompliance now closeDate rldDate isClosed pipeline, v.priority = 3) ↔
      pipeline ≠ JSValue.str "782785325" ∧
        ∃ c d, closeDate = some c ∧ rldDate = some d ∧ d < c := by
  rw [exists_priority_iff _ _ _ _ _ 3 (by decide)]
  constructor
  · rintro ⟨v, hv, hp⟩
    rw [mem_firedRules, mem_fired1, mem_fired2, mem_fired34, mem_fired5, mem_fired6] at hv
    rcases hv with h | h | ⟨hne, c, d, hc, hd, h | h⟩ | ⟨-, d, -, h | h | h⟩ | h
    · rw [h.1] at hp; exact absurd hp (by decide)
    · rw [h.1] at hp; exact absurd hp (by decide)
    · exact ⟨hne, c, d, hc, hd, h.2⟩
    all_goals (rw [h.1] at hp; exact absurd hp (by decide))
  · rintro ⟨hne, c, d, hc, hd, h⟩
    exact ⟨rldBeforeClose, (mem_firedRules ..).2 (Or.inr (Or.inr (Or.inl
      ((mem_fired34 ..).2 ⟨hne, c, d, hc, hd, Or.inl ⟨rfl, h⟩⟩)))), rfl⟩

theorem exists_priority4_iff (now : Int) (closeDate rldDate : Option Int)
    (isClosed pipeline : JSValue) :
    (∃ v ∈ calculateAllCompliance now closeDate rldDate isClosed pipeline, v.priority = 4) ↔
      pipeline ≠ JSValue.str "782785325" ∧
        ∃ c d, closeDate = some c ∧ rldDate = some d ∧ c ≤ d ∧ d < c + 28 := by
  rw [exists_priority_iff _ _ _ _ _ 4 (by decide)]
  constructor
  · rintro ⟨v, hv, hp⟩
    rw [mem_firedRules, mem_fired1, mem_fired2, mem_fired34, mem_fired5, mem_fired6] at hv
    rcases hv with h | h | ⟨hne, c, d, hc, hd, h | h⟩ | ⟨-, d, -, h | h | h⟩ | h
    · rw [h.1] at hp; exact absurd hp (by decide)
    · rw [h.1] at hp; exact absurd hp (by decide)
    · rw [h.1] at hp; exact absurd hp (by decide)
    · exact ⟨hne, c, d, hc, hd, h.2⟩
    all_goals (rw [h.1] at hp; exact absurd hp (by decide))
  · rintro ⟨hne, c, d, hc, hd, h⟩
    exact ⟨rldTooSoon, (mem_firedRules ..).2 (Or.inr (Or.inr (Or.inl
      ((mem_fired34 ..).2 ⟨hne, c, d, hc, hd, Or.inr ⟨rfl, h⟩⟩)))), rfl⟩

/-- C5: for a non-Expansions pipeline and present close date and RLD, priority 3
("rld_before_close", error) is reported exactly when RLD < close date and priority 4
("rld_too_soon", warning) exactly when close date <= RLD < close date + 28 days; they are
never reported together, and an RLD exactly 28 days after the close date fires neither. -/
theorem rld_timing_rules (now c d : Int) (isClosed pipeline : JSValue)
    (hp : pipeline ≠ JSValue.str "782785325") :
    ((∃ v ∈ calculateAllCompliance now (some c) (some d) isClosed pipeline, v.priority = 3) ↔
      d < c) ∧
    ((∃ v ∈ calculateAllCompliance now (some c) (some d) isClosed pipeline, v.priority = 4) ↔
      (c ≤ d ∧ d < c + 28)) ∧
    (∀ v ∈ calculateAllCompliance now (some c) (some d) isClosed pipeline,
      (v.priority = 3 → v.type = "rld_before_close" ∧ v.severity = "error") ∧
      (v.priority = 4 → v.type = "rld_too_soon" ∧ v.severity = "warning")) ∧
    ¬ ((∃ v ∈ calculateAllCompliance now (some c) (some d) isClosed pipeline, v.priority = 3) ∧
       (∃ v ∈ calculateAllCompliance now (some c) (some d) isClosed pipeline, v.priority = 4)) ∧
    ¬ (∃ v ∈ calculateAllCompliance now (some c) (some (c + 28)) isClosed pipeline,
        v.priority = 3 ∨ v.priority = 4) := by
  have h3 : ∀ d' : Int,
      (∃ v ∈ calculateAllCompliance now (some c) (some d') isClosed pipeline, v.priority = 3) ↔
        d' < c := by
    intro d'
    rw [exists_priority3_iff]
    simp only [ne_eq, hp, not_false_eq_true, Option.some.injEq, exists_and_left, exists_eq_left',
      true_and]
  have h4 : ∀ d' : Int,
      (∃ v ∈ calculateAllCompliance now (some c) (some d') isClosed pipeline, v.priority = 4) ↔
        (c ≤ d' ∧ d' < c + 28) := by
    intro d'
    rw [exists_priority4_iff]
    simp only [ne_eq, hp, not_false_eq_true, Option.some.injEq, exists_and_left, exists_eq_left',
      true_and]
  refine ⟨h3 d, h4 d, ?_, ?_, ?_⟩
  · intro v hv
    rcases priority_of_mem _ _ _ _ _ v hv with h | h | h | h | h | h | h | h | h <;>
      subst h <;> simp [compliantEntry, closeDatePast, rldPast, rldBeforeClose, rldTooSoon,
        rldHoliday, rldWrongTuesday, rldWrongDay, missingData]
  · rw [h3, h4]
    omega
  · rintro ⟨v, hv, h | h⟩
    · have := (h3 (c + 28)).1 ⟨v, hv, h⟩
      omega
    · have := (h4 (c + 28)).1 ⟨v, hv, h⟩
      omega

/-- Witness of C5: close date 2025-06-02, RLD 2025-06-11, a pipeline that is not
Expansions. -/
theorem rld_timing_rules_witness :
    JSValue.str "default" ≠ JSValue.str "782785325" ∧
    ((∃ v ∈ calculateAllCompliance (dateAtNoon 20200) (some 20241) (some 20250)
        JSValue.undefined (JSValue.str "default"), v.priority = 4) ↔
      ((20241 : Int) ≤ 20250 ∧ (20250 : Int) < 20241 + 28)) :=
  ⟨by decide,
    (rld_timing_rules (dateAtNoon 20200) 20241 20250 JSValue.undefined (JSValue.str "default")
      (by decide)).2.1⟩

theorem filter_priority5 (now : Int) (closeDate rldDate : Option Int)
    (isClosed pipeline : JSValue) :
    (calculateAllCompliance now closeDate rldDate isClosed pipeline).filter
        (fun v => decide (v.priority = 5)) = fired5 rldDate pipeline := by
  rw [calculateAllCompliance_eq]
  split_ifs with h
  · simp only [firedRules, List.append_eq_nil] at h
    rw [h.1.2]
    simp [compliantEntry]
  · unfold firedRules
    rcases fired1_cases now closeDate isClosed with h1 | h1 <;>
    rcases fired2_cases now rldDate with h2 | h2 <;>
    rcases fired34_cases closeDate rldDate pipeline with h3 | h3 | h3 <;>
    rcases fired5_cases rldDate pipeline with h5 | h5 | h5 | h5 <;>
    rcases fired6_cases closeDate rldDate with h6 | h6 <;>
    rw [h1, h2, h3, h5, h6] <;> decide

theorem exists_priority5_iff (now : Int) (closeDate rldDate : Option Int)
    (isClosed pipeline : JSValue) :
    (∃ v ∈ calculateAllCompliance now closeDate rldDate isClosed pipeline, v.priority = 5) ↔
      fired5 rldDate pipeline ≠ [] := by
  rw [← filter_priority5 now closeDate rldDate isClosed pipeline, ne_eq, List.filter_eq_nil_iff]
  simp only [decide_eq_true_eq, not_forall, Classical.not_imp, not_not, exists_prop]

/-- C6: for a non-Expansions pipeline and a present RLD, no priority-5 entry is reported
exactly when the RLD is a Monday that is no federal holiday or a Tuesday whose preceding
day is one; otherwise exactly one priority-5 warning is reported, of type "rld_holiday"
when the RLD is a holiday Monday and "rld_wrong_day" in every other case. RLD 2025-01-21,
the Tuesday after the holiday 2025-01-20, fires neither type. -/
theorem rld_weekday_rule (now d : Int) (closeDate : Option Int) (isClosed pipeline : JSValue)
    (hp : pipeline ≠ JSValue.str "782785325") :
    ((¬ ∃ v ∈ calculateAllCompliance now closeDate (some d) isClosed pipeline, v.priority = 5) ↔
      ((getDay (dateAtNoon d) = 1 ∧ isFederalHoliday (dateAtNoon d) = false) ∨
       (getDay (dateAtNoon d) = 2 ∧ isFederalHoliday (dateAtNoon (d - 1)) = true))) ∧
    ((∃ v ∈ calculateAllCompliance now closeDate (some d) isClosed pipeline, v.priority = 5) →
      ∃ v, (calculateAllCompliance now closeDate (some d) isClosed pipeline).filter
          (fun v => decide (v.priority = 5)) = [v] ∧
        v.severity = "warning" ∧
        v.type = if getDay (dateAtNoon d) = 1 ∧ isFederalHoliday (dateAtNoon d) = true
          then "rld_holiday" else "rld_wrong_day") ∧
    (∀ v ∈ calculateAllCompliance now closeDate (some 20109) isClosed pipeline,
      v.type ≠ "rld_wrong_day" ∧ v.type ≠ "rld_holiday") := by
  refine ⟨?_, ?_, ?_⟩
  · rw [exists_priority5_iff, not_not]
    simp only [fired5, hp, if_false]
    split_ifs with h1 h2 h3 h4 <;> simp_all
  · rw [exists_priority5_iff, filter_priority5]
    simp only [fired5, hp, if_false]
    split_ifs with h1 h2 h3 h4 <;>
      simp_all [rldHoliday, rldWrongTuesday, rldWrongDay]
  · intro v hv
    have h5 : fired5 (some 20109) pipeline = [] := by
      simp only [fired5, hp, if_false]
      decide
    rcases (mem_calculateAllCompliance ..).1 hv with ⟨-, rfl⟩ | h
    · simp [compliantEntry]
    · rw [mem_firedRules, mem_fired1, mem_fired2, mem_fired34, h5, mem_fired6] at h
      rcases h with h | h | ⟨-, c, d, -, -, h | h⟩ | h | h
      · rw [h.1]; decide
      · rw [h.1]; decide
      · rw [h.1]; decide
      · rw [h.1]; decide
      · simp at h
      · rw [h.1]; decide

/-- Witness of C6: RLD 2025-06-04, a Wednesday, with a pipeline that is not Expansions. -/
theorem rld_weekday_rule_witness :
    JSValue.str "default" ≠ JSValue.str "782785325" ∧
    ((¬ ∃ v ∈ calculateAllCompliance (dateAtNoon 20200) (some 20210) (some 20243)
        JSValue.undefined (JSValue.str "default"), v.priority = 5) ↔
      ((getDay (dateAtNoon 20243) = 1 ∧ isFederalHoliday (dateAtNoon 20243) = false) ∨
       (getDay (dateAtNoon 20243) = 2 ∧ isFederalHoliday (dateAtNoon (20243 - 1)) = true))) :=
  ⟨by decide,
    (rld_weekday_rule (dateAtNoon 20200) 20243 (some 20210) JSValue.undefined
      (JSValue.str "default") (by decide)).1⟩

/-! ## The suggestion engine, branch by branch -/

theorem calculatePerfectRLD_no_current (c : Int) :
    calculatePerfectRLD (some c) none = some (some (freshTarget c)) := by
  simp only [calculatePerfectRLD, parseDate]
  rw [show (if getDay (addDays (dateAtNoon c) 28) = 0 then addDays (addDays (dateAtNoon c) 28) 1
      else if getDay (addDays (dateAtNoon c) 28) = 1 then addDays (dateAtNoon c) 28
      else addDays (addDays (dateAtNoon c) 28) (8 - getDay (addDays (dateAtNoon c) 28))) =
      rolledTarget c from rfl, holidayLoop_loopFuel]
  rfl

theorem calculatePerfectRLD_current (c r : Int) :
    calculatePerfectRLD (some c) (some r) =
      some (some (
        if dateAtNoon r ≥ addDays (dateAtNoon c) 28 then
          if getDay (dateAtNoon r) = 1 then
            if isFederalHoliday (dateAtNoon r) = true then addDays (dateAtNoon r) 1
            else dateAtNoon r
          else if getDay (dateAtNoon r) = 2 then
            if isFederalHoliday (addDays (dateAtNoon r) (-1)) = true then dateAtNoon r
            else addDays (dateAtNoon r) (-1)
          else freshTarget c
        else freshTarget c)) := by
  simp only [calculatePerfectRLD, parseDate]
  rw [show (if getDay (addDays (dateAtNoon c) 28) = 0 then addDays (addDays (dateAtNoon c) 28) 1
      else if getDay (addDays (dateAtNoon c) 28) = 1 then addDays (dateAtNoon c) 28
      else addDays (addDays (dateAtNoon c) 28) (8 - getDay (addDays (dateAtNoon c) 28))) =
      rolledTarget c from rfl, holidayLoop_loopFuel]
  simp only [← freshTarget.eq_1]
  split_ifs <;> simp_all

theorem getDay_rolledTarget (c : Int) : getDay (rolledTarget c) = 1 := by
  simp only [rolledTarget, addDays_dateAtNoon, getDay_dateAtNoon]
  split_ifs <;> simp only [getDay_dateAtNoon] <;> omega

/-- The fresh target is a valid launch day. -/
theorem freshTarget_valid (c : Int) :
    (getDay (freshTarget c) = 1 ∧ isFederalHoliday (freshTarget c) = false) ∨
    (getDay (freshTarget c) = 2 ∧ isFederalHoliday (addDays (freshTarget c) (-1)) = true) := by
  have ht := getDay_rolledTarget c
  unfold freshTarget
  by_cases h : isFederalHoliday (rolledTarget c) = true
  · right
    rw [if_pos h, addDays_addDays, getDay_addDays, ht]
    exact ⟨by decide, by simpa [addDays_zero] using h⟩
  · left
    rw [if_neg h]
    exact ⟨ht, by simpa using h⟩

theorem le_rolledTarget (c : Int) : addDays (dateAtNoon c) 28 ≤ rolledTarget c := by
  simp only [rolledTarget, addDays_dateAtNoon, getDay_dateAtNoon]
  split_ifs <;> rw [dateAtNoon_le] <;> omega

theorem le_freshTarget (c : Int) : addDays (dateAtNoon c) 28 ≤ freshTarget c := by
  have h := le_rolledTarget c
  unfold freshTarget
  split_ifs
  · simp only [addDays, msPerDay] at h ⊢; omega
  · exact h

/-- Where the 28-day minimum holds: `calculatePerfectRLD` returns a date at least 28 days
after the close date, except when the current RLD is a Tuesday exactly 28 days after the
close date whose Monday before is no holiday; it then returns that Monday, the close date
plus 27 days. -/
theorem calculatePerfectRLD_minimum_or_tuesday (c : Int) (currentRLD : Option Int) :
    ∃ t, calculatePerfectRLD (some c) currentRLD = some (some t) ∧
      (addDays (dateAtNoon c) 28 ≤ t ∨
        (currentRLD = some (c + 28) ∧ getDay (dateAtNoon (c + 28)) = 2 ∧
          isFederalHoliday (dateAtNoon (c + 27)) = false ∧ t = dateAtNoon (c + 27))) := by
  have hf := le_freshTarget c
  rcases currentRLD with _ | r
  · exact ⟨_, calculatePerfectRLD_no_current c, Or.inl hf⟩
  · refine ⟨_, calculatePerfectRLD_current c r, ?_⟩
    split_ifs with h1 h2 h3 h4 h5
    · left
      simp only [addDays, msPerDay] at h1 ⊢; omega
    · exact Or.inl h1
    · exact Or.inl h1
    · rw [addDays_dateAtNoon, ge_iff_le, dateAtNoon_le] at h1
      rw [addDays_dateAtNoon] at h5 ⊢
      rw [addDays_dateAtNoon, dateAtNoon_le]
      by_cases hr : r = c + 28
      · subst hr
        right
        refine ⟨rfl, h4, ?_, ?_⟩
        · rw [show c + 27 = c + 28 + -1 by ring]; simpa using h5
        · rw [show c + 27 = c + 28 + -1 by ring]
      · left; omega
    · exact Or.inl hf
    · exact Or.inl hf

/-! ## Claims on the date suggestion engine -/

/-- C10: for every present close date and every current RLD, `calculatePerfectRLD` returns
a date that is a Monday not in `FEDERAL_HOLIDAYS` or a Tuesday whose preceding Monday is
in `FEDERAL_HOLIDAYS`. -/
theorem calculatePerfectRLD_valid_launch_day (c : Int) (currentRLD : Option Int) :
    ∃ t, calculatePerfectRLD (some c) currentRLD = some (some t) ∧
      ((getDay t = 1 ∧ isFederalHoliday t = false) ∨
       (getDay t = 2 ∧ isFederalHoliday (addDays t (-1)) = true)) := by
  have hv := freshTarget_valid c
  rcases currentRLD with _ | r
  · exact ⟨_, calculatePerfectRLD_no_current c, hv⟩
  · refine ⟨_, calculatePerfectRLD_current c r, ?_⟩
    split_ifs with h1 h2 h3 h4 h5
    · refine Or.inr ⟨?_, ?_⟩
      · rw [getDay_addDays, h2]; decide
      · rw [addDays_addDays]
        simpa [addDays_zero] using h3
    · exact Or.inl ⟨h2, by simpa using h3⟩
    · exact Or.inr ⟨h4, h5⟩
    · refine Or.inl ⟨?_, by simpa using h5⟩
      rw [getDay_addDays, h4]; decide
    · exact hv
    · exact hv

/-- C9, at close date 2025-06-03 and current RLD 2025-07-01 (a Tuesday, the close date
plus 28 days): `calculatePerfectRLD` moves back to Monday 2025-06-30, which is the close
date plus 27 days, and `calculateAllCompliance` reports that date as "rld_too_soon". -/
theorem calculatePerfectRLD_before_minimum :
    calculatePerfectRLD (some 20242) (some 20270) = some (some (dateAtNoon 20269)) ∧
    dateAtNoon 20269 < addDays (dateAtNoon 20242) 28 ∧
    formatDateForAPI (some (dateAtNoon 20269)) = some 20269 ∧
    (20269 : Int) < 20242 + 28 ∧
    calculateAllCompliance (dateAtNoon 20200) (some 20242) (some 20269) JSValue.undefined
        (JSValue.str "default") =
      [⟨4, "rld_too_soon", "RLD too soon (less than 4 weeks)", "warning"⟩] := by
  decide

/-- The rolled target is noon of the first Monday on or after close date + 28 days. -/
theorem rolledTarget_eq_first_monday (c m : Int) (h1 : c + 28 ≤ m)
    (h2 : getDay (dateAtNoon m) = 1)
    (h3 : ∀ k, c + 28 ≤ k → getDay (dateAtNoon k) = 1 → m ≤ k) :
    rolledTarget c = dateAtNoon m := by
  have hk := h3 (dayOf (rolledTarget c))
  have hm := getDay_rolledTarget c
  simp only [rolledTarget, addDays_dateAtNoon, getDay_dateAtNoon, dayOf_dateAtNoon] at hk hm ⊢
  rw [getDay_dateAtNoon] at h2
  split_ifs at hk hm ⊢ with h5 h6 <;>
    simp only [getDay_dateAtNoon, dayOf_dateAtNoon] at hk hm <;>
    congr 1 <;> omega

/-- C11: with no current RLD, when the first Monday on or after close date + 28 days is
no federal holiday, `calculatePerfectRLD` returns that Monday: a Sunday target moves one
day on, a Monday target stays, a Tuesday-Saturday target moves to the next Monday, so the
result lies between close date + 28 and close date + 34 days. -/
theorem calculatePerfectRLD_first_monday (c m : Int) (h1 : c + 28 ≤ m)
    (h2 : getDay (dateAtNoon m) = 1)
    (h3 : ∀ k, c + 28 ≤ k → getDay (dateAtNoon k) = 1 → m ≤ k)
    (h4 : isFederalHoliday (dateAtNoon m) = false) :
    calculatePerfectRLD (some c) none = some (some (dateAtNoon m)) ∧
    formatDateForAPI (some (dateAtNoon m)) = some m ∧
    m ≤ c + 34 ∧
    (getDay (dateAtNoon (c + 28)) = 0 → m = c + 28 + 1) ∧
    (getDay (dateAtNoon (c + 28)) = 1 → m = c + 28) ∧
    (2 ≤ getDay (dateAtNoon (c + 28)) →
      m = c + 28 + (8 - getDay (dateAtNoon (c + 28)))) := by
  have hr := rolledTarget_eq_first_monday c m h1 h2 h3
  refine ⟨?_, ?_, ?_, ?_, ?_, ?_⟩
  · rw [calculatePerfectRLD_no_current, freshTarget, hr, h4]
    simp
  · simp [formatDateForAPI, dayOf_dateAtNoon]
  all_goals
    simp only [rolledTarget, addDays_dateAtNoon, getDay_dateAtNoon] at hr ⊢
    split_ifs at hr <;> rw [dateAtNoon, dateAtNoon, msPerDay] at hr <;> omega

/-- Witness of C11: close date 2025-06-02 gives 2025-06-30. -/
theorem calculatePerfectRLD_first_monday_witness :
    calculatePerfectRLD (some 20241) none = some (some (dateAtNoon 20269)) ∧
    formatDateForAPI (some (dateAtNoon 20269)) = some 20269 ∧
    civilOfDay 20241 = ⟨2025, 6, 2⟩ ∧ civilOfDay 20269 = ⟨2025, 6, 30⟩ :=
  ⟨(calculatePerfectRLD_first_monday 20241 20269 (by decide) (by decide)
      (fun k hk _ => hk) (by decide)).1,
    (calculatePerfectRLD_first_monday 20241 20269 (by decide) (by decide)
      (fun k hk _ => hk) (by decide)).2.1, by decide, by decide⟩

/-- C12: with no current RLD, when the first Monday M on or after close date + 28 days is
in `FEDERAL_HOLIDAYS`, `calculatePerfectRLD` returns M + 1 day, the Tuesday; from any
date the holiday loop stops at that date or at the next day. -/
theorem calculatePerfectRLD_holiday_monday (c m : Int) (h1 : c + 28 ≤ m)
    (h2 : getDay (dateAtNoon m) = 1)
    (h3 : ∀ k, c + 28 ≤ k → getDay (dateAtNoon k) = 1 → m ≤ k)
    (h4 : isFederalHoliday (dateAtNoon m) = true) :
    calculatePerfectRLD (some c) none = some (some (dateAtNoon (m + 1))) ∧
    getDay (dateAtNoon (m + 1)) = 2 ∧
    (∀ targetDate, holidayLoop loopFuel targetDate = some targetDate ∨
      holidayLoop loopFuel targetDate = some (addDays targetDate 1)) := by
  have hr := rolledTarget_eq_first_monday c m h1 h2 h3
  refine ⟨?_, ?_, ?_⟩
  · rw [calculatePerfectRLD_no_current, freshTarget, hr, h4, addDays_dateAtNoon]
    simp
  · rw [getDay_dateAtNoon] at h2 ⊢; omega
  · intro t
    rw [holidayLoop_loopFuel]
    split_ifs
    · exact Or.inr rfl
    · exact Or.inl rfl

/-- Witness of C12: close date 2024-12-23 gives Tuesday 2025-01-21, the day after the
holiday 2025-01-20. -/
theorem calculatePerfectRLD_holiday_monday_witness :
    calculatePerfectRLD (some 20080) none = some (some (dateAtNoon (20108 + 1))) ∧
    civilOfDay 20080 = ⟨2024, 12, 23⟩ ∧ civilOfDay (20108 + 1) = ⟨2025, 1, 21⟩ :=
  ⟨(calculatePerfectRLD_holiday_monday 20080 20108 (by decide) (by decide)
      (fun k hk _ => hk) (by decide)).1, by decide, by decide⟩

/-- On Monday and Tuesday the current-RLD branch corrects the day only: for a current RLD
at least 28 days after the close date that falls on a Monday or a Tuesday, the result is
the current RLD or a day next to it. -/
theorem calculatePerfectRLD_monday_tuesday_near (c r : Int) (h : c + 28 ≤ r)
    (hd : getDay (dateAtNoon r) = 1 ∨ getDay (dateAtNoon r) = 2) :
    ∃ k, calculatePerfectRLD (some c) (some r) = some (some (dateAtNoon k)) ∧
      r - 1 ≤ k ∧ k ≤ r + 1 := by
  have hge : dateAtNoon r ≥ addDays (dateAtNoon c) 28 := by
    rw [addDays_dateAtNoon, ge_iff_le, dateAtNoon_le]; exact h
  rw [calculatePerfectRLD_current, if_pos hge]
  rcases hd with h1 | h2
  · rw [if_pos h1]
    split_ifs
    · exact ⟨r + 1, by rw [addDays_dateAtNoon], by omega, by omega⟩
    · exact ⟨r, rfl, by omega, by omega⟩
  · have h1' : getDay (dateAtNoon r) ≠ 1 := by rw [h2]; decide
    rw [if_neg h1', if_pos h2]
    split_ifs
    · exact ⟨r, rfl, by omega, by omega⟩
    · exact ⟨r + -1, by rw [addDays_dateAtNoon], by omega, by omega⟩

/-- On the other weekdays the current-RLD branch does not look at the current RLD: for a
current RLD at least 28 days after the close date that falls on Wednesday to Sunday, the
result is the one computed without current RLD. -/
theorem calculatePerfectRLD_other_weekday (c r : Int) (h : c + 28 ≤ r)
    (h1 : getDay (dateAtNoon r) ≠ 1) (h2 : getDay (dateAtNoon r) ≠ 2) :
    calculatePerfectRLD (some c) (some r) = calculatePerfectRLD (some c) none := by
  have hge : dateAtNoon r ≥ addDays (dateAtNoon c) 28 := by
    rw [addDays_dateAtNoon, ge_iff_le, dateAtNoon_le]; exact h
  rw [calculatePerfectRLD_current, if_pos hge, if_neg h1, if_neg h2,
    calculatePerfectRLD_no_current]

/-- C13, at close date 2025-06-02 and current RLD Wednesday 2025-08-13, 72 days after the
close date: `calculatePerfectRLD` does not correct the weekday of the current RLD, it
returns the target freshly computed from close date + 28 days, 2025-06-30, which is 44
days before the current RLD, although Monday 2025-08-11, two days before the current RLD,
is a valid launch day. -/
theorem calculatePerfectRLD_wednesday_replaced :
    (20241 : Int) + 28 ≤ 20313 ∧ getDay (dateAtNoon 20313) = 3 ∧
    calculatePerfectRLD (some 20241) (some 20313) = some (some (dateAtNoon 20269)) ∧
    calculatePerfectRLD (some 20241) (some 20313) = calculatePerfectRLD (some 20241) none ∧
    (20313 : Int) - 20269 = 44 ∧
    getDay (dateAtNoon 20311) = 1 ∧ isFederalHoliday (dateAtNoon 20311) = false ∧
    civilOfDay 20241 = ⟨2025, 6, 2⟩ ∧ civilOfDay 20313 = ⟨2025, 8, 13⟩ ∧
    civilOfDay 20269 = ⟨2025, 6, 30⟩ ∧ civilOfDay 20311 = ⟨2025, 8, 11⟩ := by
  decide

/-- C14: a current RLD that is at least 28 days after the close date and is already a
valid launch day (a Monday that is no holiday, or a Tuesday whose Monday before is a
federal holiday) is returned unchanged. -/
theorem calculatePerfectRLD_keeps_valid (c r : Int) (h : c + 28 ≤ r)
    (hv : (getDay (dateAtNoon r) = 1 ∧ isFederalHoliday (dateAtNoon r) = false) ∨
      (getDay (dateAtNoon r) = 2 ∧ isFederalHoliday (dateAtNoon (r - 1)) = true)) :
    calculatePerfectRLD (some c) (some r) = some (some (dateAtNoon r)) ∧
    formatDateForAPI (some (dateAtNoon r)) = some r := by
  have hge : dateAtNoon r ≥ addDays (dateAtNoon c) 28 := by
    rw [addDays_dateAtNoon, ge_iff_le, dateAtNoon_le]; exact h
  refine ⟨?_, by simp [formatDateForAPI, dayOf_dateAtNoon]⟩
  rcases hv with ⟨h1, h2⟩ | ⟨h1, h2⟩
  · have h2' : ¬ isFederalHoliday (dateAtNoon r) = true := by rw [h2]; decide
    rw [calculatePerfectRLD_current, if_pos hge, if_pos h1, if_neg h2']
  · have h1' : getDay (dateAtNoon r) ≠ 1 := by rw [h1]; decide
    have h2' : isFederalHoliday (addDays (dateAtNoon r) (-1)) = true := by
      rw [addDays_dateAtNoon, ← sub_eq_add_neg, h2]
    rw [calculatePerfectRLD_current, if_pos hge, if_neg h1', if_pos h1, if_pos h2']

/-- Witness of C14: close date 2025-06-02 and current RLD Monday 2025-07-07. -/
theorem calculatePerfectRLD_keeps_valid_witness :
    (20241 : Int) + 28 ≤ 20276 ∧
    calculatePerfectRLD (some 20241) (some 20276) = some (some (dateAtNoon 20276)) :=
  ⟨by decide,
    (calculatePerfectRLD_keeps_valid 20241 20276 (by decide) (Or.inl (by decide))).1⟩

/-! ## The reconciler, branch by branch -/

theorem updateComplianceAndApproval_eq (now : Int) (s : DealData) :
    updateComplianceAndApproval now s = complianceWrite now s ++ approvalWrites now s := by
  simp only [updateComplianceAndApproval, complianceWrite, approvalWrites, clearApproval]
  split_ifs <;> simp_all

theorem datesChangedSinceApproval_iff (s : DealData) :
    datesChangedSinceApproval s = true ↔
      s.override_request_status = JSValue.str "approved" ∧
        ((∃ a, s.approved_close_date = some a ∧ s.closedate ≠ some a) ∨
         (∃ a, s.approved_rld = some a ∧ s.requested_launch_date ≠ some a)) := by
  rcases s with ⟨cd, rd, ic, pl, cs, st, rb, rqd, ab, ad, roa, acd, ard⟩
  simp only [datesChangedSinceApproval]
  by_cases h : st = JSValue.str "approved" <;> rcases acd with _ | a <;> rcases ard with _ | b <;>
    simp [h]

theorem mem_complianceWrite (now : Int) (s : DealData) (x : Update)
    (hx : x ∈ complianceWrite now s) : ∃ v, x = Update.compliance_status v := by
  unfold complianceWrite at hx
  split_ifs at hx
  · exact ⟨_, List.mem_singleton.1 hx⟩
  · simp at hx

theorem approvalWrites_drift (now : Int) (s : DealData)
    (hs : s.override_request_status = JSValue.str "approved")
    (hd : (∃ a, s.approved_close_date = some a ∧ s.closedate ≠ some a) ∨
      (∃ a, s.approved_rld = some a ∧ s.requested_launch_date ≠ some a)) :
    approvalWrites now s = clearApproval [] := by
  rw [approvalWrites, if_pos ((datesChangedSinceApproval_iff s).2 ⟨hs, hd⟩)]

/-! ## Claims on the state reconciler -/

/-- C15 fails when the snapshot is empty: the deal is approved and its close date
2025-06-02 differs from the empty `approved_close_date`, yet the update set is empty. -/
theorem reconciler_empty_snapshot_counterexample :
    approvedWithoutSnapshot.override_request_status = JSValue.str "approved" ∧
    approvedWithoutSnapshot.closedate ≠ approvedWithoutSnapshot.approved_close_date ∧
    approvedWithoutSnapshot.requested_launch_date ≠ approvedWithoutSnapshot.approved_rld ∧
    updateComplianceAndApproval (dateAtNoon 20200) approvedWithoutSnapshot = [] := by
  decide

/-- C15 as amended: for an approved deal whose `approved_close_date` is non-empty and
differs from the close date, or whose `approved_rld` is non-empty and differs from the
RLD, the update set sets `override_request_status` to "none", and to nothing else. -/
theorem reconciler_clears_status_on_drift (now : Int) (s : DealData)
    (hs : s.override_request_status = JSValue.str "approved")
    (hd : (∃ a, s.approved_close_date = some a ∧ s.closedate ≠ some a) ∨
      (∃ a, s.approved_rld = some a ∧ s.requested_launch_date ≠ some a)) :
    Update.override_request_status "none" ∈ updateComplianceAndApproval now s ∧
    ∀ v, Update.override_request_status v ∈ updateComplianceAndApproval now s → v = "none" := by
  rw [updateComplianceAndApproval_eq, approvalWrites_drift now s hs hd]
  constructor
  · simp [clearApproval]
  · intro v hv
    rcases List.mem_append.1 hv with h | h
    · obtain ⟨w, hw⟩ := mem_complianceWrite now s _ h
      cases hw
    · simpa [clearApproval] using h

/-- Witness of C15 as amended: snapshot close date 2025-01-01, close date now 2025-06-02. -/
theorem reconciler_clears_status_on_drift_witness :
    Update.override_request_status "none" ∈ updateComplianceAndApproval (dateAtNoon 20200)
      { approvedWithoutSnapshot with approved_close_date := some 20089 } :=
  (reconciler_clears_status_on_drift (dateAtNoon 20200)
    { approvedWithoutSnapshot with approved_close_date := some 20089 } rfl
    (Or.inl ⟨20089, rfl, by decide⟩)).1

/-- C16: on an approved deal with date drift (a non-empty `approved_close_date` different
from `closedate`, or a non-empty `approved_rld` different from `requested_launch_date`),
compliant or not and whoever approved it, the update set writes "none" to
`override_request_status` and the empty string to the approver, approval date, requester,
request date, `rld_override_approval` and both snapshot dates, after at most the write of
`compliance_status`. -/
theorem reconciler_drift_clears_all (now : Int) (s : DealData)
    (hs : s.override_request_status = JSValue.str "approved")
    (hd : (∃ a, s.approved_close_date = some a ∧ s.closedate ≠ some a) ∨
      (∃ a, s.approved_rld = some a ∧ s.requested_launch_date ≠ some a)) :
    ∃ first, (∀ x ∈ first, ∃ v, x = Update.compliance_status v) ∧
      updateComplianceAndApproval now s = first ++ [
        Update.override_request_status "none",
        Update.override_approved_by "",
        Update.override_approval_date none,
        Update.override_requested_by "",
        Update.override_request_date none,
        Update.rld_override_approval "",
        Update.approved_close_date none,
        Update.approved_rld none] := by
  refine ⟨complianceWrite now s, mem_complianceWrite now s, ?_⟩
  rw [updateComplianceAndApproval_eq, approvalWrites_drift now s hs hd]
  rfl

/-- Witness of C16: snapshot close date 2025-01-01, close date now 2025-02-01. -/
theorem reconciler_drift_clears_all_witness :
    civilOfDay 20089 = ⟨2025, 1, 1⟩ ∧ civilOfDay 20120 = ⟨2025, 2, 1⟩ ∧
    ∃ first, (∀ x ∈ first, ∃ v, x = Update.compliance_status v) ∧
      updateComplianceAndApproval (dateAtNoon 20100) driftedDeal = first ++ [
        Update.override_request_status "none",
        Update.override_approved_by "",
        Update.override_approval_date none,
        Update.override_requested_by "",
        Update.override_request_date none,
        Update.rld_override_approval "",
        Update.approved_close_date none,
        Update.approved_rld none] :=
  ⟨by decide, by decide,
    reconciler_drift_clears_all (dateAtNoon 20100) driftedDeal rfl
      (Or.inl ⟨20089, rfl, by decide⟩)⟩

/-- C17: for a compliant deal whose `override_request_status` is not "approved" (so no
date drift is detected), the update set writes `override_request_status` = "approved",
`override_approved_by` = "Auto-approved (Compliant)", `override_approval_date` = today,
`approved_close_date` = the close date and `approved_rld` = the RLD. -/
theorem reconciler_auto_approves (now : Int) (s : DealData)
    (hc : isCompliant (calculateAllCompliance now s.closedate s.requested_launch_date
      s.is_closed s.pipeline) = true)
    (hs : s.override_request_status ≠ JSValue.str "approved") :
    datesChangedSinceApproval s = false ∧
    ∃ first, (∀ x ∈ first, ∃ v, x = Update.compliance_status v) ∧
      updateComplianceAndApproval now s = first ++ [
        Update.override_request_status "approved",
        Update.override_approved_by "Auto-approved (Compliant)",
        Update.override_approval_date (some (dayOf now)),
        Update.rld_override_approval "Approved",
        Update.approved_close_date s.closedate,
        Update.approved_rld s.requested_launch_date] := by
  have hd : datesChangedSinceApproval s = false := by
    rw [← Bool.not_eq_true, datesChangedSinceApproval_iff]
    exact fun h => hs h.1
  refine ⟨hd, complianceWrite now s, mem_complianceWrite now s, ?_⟩
  rw [updateComplianceAndApproval_eq, approvalWrites, if_neg (by rw [hd]; decide), if_pos hc,
    if_pos hs]

/-- Witness of C17: a compliant deal with status "none". -/
theorem reconciler_auto_approves_witness :
    isCompliant (calculateAllCompliance (dateAtNoon 20200) compliantUnapproved.closedate
      compliantUnapproved.requested_launch_date compliantUnapproved.is_closed
      compliantUnapproved.pipeline) = true ∧
    compliantUnapproved.override_request_status ≠ JSValue.str "approved" ∧
    datesChangedSinceApproval compliantUnapproved = false :=
  ⟨by decide, by decide,
    (reconciler_auto_approves (dateAtNoon 20200) compliantUnapproved (by decide)
      (by decide)).1⟩

/-- C18: for a non-compliant deal with no detected date drift that is "approved" by
"Auto-approved (Compliant)", the update set writes `override_request_status` = "none" and
the empty string to the approver, approval date, requester, request date,
`rld_override_approval` and both snapshot dates. -/
theorem reconciler_clears_stale_auto_approval (now : Int) (s : DealData)
    (hc : isCompliant (calculateAllCompliance now s.closedate s.requested_launch_date
      s.is_closed s.pipeline) = false)
    (hd : datesChangedSinceApproval s = false)
    (hs : s.override_request_status = JSValue.str "approved")
    (ha : s.override_approved_by = JSValue.str "Auto-approved (Compliant)") :
    ∃ first, (∀ x ∈ first, ∃ v, x = Update.compliance_status v) ∧
      updateComplianceAndApproval now s = first ++ [
        Update.override_request_status "none",
        Update.override_approved_by "",
        Update.override_approval_date none,
        Update.override_requested_by "",
        Update.override_request_date none,
        Update.rld_override_approval "",
        Update.approved_close_date none,
        Update.approved_rld none] := by
  refine ⟨complianceWrite now s, mem_complianceWrite now s, ?_⟩
  rw [updateComplianceAndApproval_eq, approvalWrites, if_neg (by rw [hd]; decide),
    if_neg (by rw [hc]; decide), if_pos ⟨hs, ha⟩]
  rfl

/-- Witness of C18: an auto-approved deal whose RLD is a Wednesday. -/
theorem reconciler_clears_stale_auto_approval_witness :
    updateComplianceAndApproval (dateAtNoon 20200)
        (wednesdayApproved "Auto-approved (Compliant)") =
      [Update.compliance_status "rld_wrong_day",
        Update.override_request_status "none",
        Update.override_approved_by "",
        Update.override_approval_date none,
        Update.override_requested_by "",
        Update.override_request_date none,
        Update.rld_override_approval "",
        Update.approved_close_date none,
        Update.approved_rld none] ∧
    ∃ first, (∀ x ∈ first, ∃ v, x = Update.compliance_status v) ∧
      updateComplianceAndApproval (dateAtNoon 20200)
          (wednesdayApproved "Auto-approved (Compliant)") = first ++ [
        Update.override_request_status "none",
        Update.override_approved_by "",
        Update.override_approval_date none,
        Update.override_requested_by "",
        Update.override_request_date none,
        Update.rld_override_approval "",
        Update.approved_close_date none,
        Update.approved_rld none] :=
  ⟨by decide,
    reconciler_clears_stale_auto_approval (dateAtNoon 20200)
      (wednesdayApproved "Auto-approved (Compliant)") (by decide) (by decide) rfl rfl⟩

theorem applyUpdates_compliance_only (s : DealData) (u : List Update)
    (hu : ∀ x ∈ u, ∃ v, x = Update.compliance_status v) :
    (applyUpdates s u).override_request_status = s.override_request_status ∧
    (applyUpdates s u).override_approved_by = s.override_approved_by ∧
    (applyUpdates s u).override_approval_date = s.override_approval_date ∧
    (applyUpdates s u).override_requested_by = s.override_requested_by ∧
    (applyUpdates s u).override_request_date = s.override_request_date ∧
    (applyUpdates s u).rld_override_approval = s.rld_override_approval ∧
    (applyUpdates s u).approved_close_date = s.approved_close_date ∧
    (applyUpdates s u).approved_rld = s.approved_rld := by
  induction u generalizing s with
  | nil => simp [applyUpdates]
  | cons x u ih =>
    obtain ⟨v, rfl⟩ := hu x (List.mem_cons_self _ _)
    have h := ih (applyUpdate s (Update.compliance_status v))
      (fun y hy => hu y (List.mem_cons_of_mem _ hy))
    simpa [applyUpdates, applyUpdate] using h

/-- C19: for a non-compliant deal with no detected date drift that is "approved" by any
actor other than "Auto-approved (Compliant)", the update set holds no override field:
only `compliance_status` may be written, and the eight override properties are left as
they were. -/
theorem reconciler_keeps_manual_approval (now : Int) (s : DealData)
    (hc : isCompliant (calculateAllCompliance now s.closedate s.requested_launch_date
      s.is_closed s.pipeline) = false)
    (hd : datesChangedSinceApproval s = false)
    (_hs : s.override_request_status = JSValue.str "approved")
    (ha : s.override_approved_by ≠ JSValue.str "Auto-approved (Compliant)") :
    (∀ x ∈ updateComplianceAndApproval now s, ∃ v, x = Update.compliance_status v) ∧
    (applyUpdates s (updateComplianceAndApproval now s)).override_request_status =
      s.override_request_status ∧
    (applyUpdates s (updateComplianceAndApproval now s)).override_approved_by =
      s.override_approved_by ∧
    (applyUpdates s (updateComplianceAndApproval now s)).override_approval_date =
      s.override_approval_date ∧
    (applyUpdates s (updateComplianceAndApproval now s)).override_requested_by =
      s.override_requested_by ∧
    (applyUpdates s (updateComplianceAndApproval now s)).override_request_date =
      s.override_request_date ∧
    (applyUpdates s (updateComplianceAndApproval now s)).rld_override_approval =
      s.rld_override_approval ∧
    (applyUpdates s (updateComplianceAndApproval now s)).approved_close_date =
      s.approved_close_date ∧
    (applyUpdates s (updateComplianceAndApproval now s)).approved_rld = s.approved_rld := by
  have hu : ∀ x ∈ updateComplianceAndApproval now s, ∃ v, x = Update.compliance_status v := by
    rw [updateComplianceAndApproval_eq, approvalWrites, if_neg (by rw [hd]; decide),
      if_neg (by rw [hc]; decide), if_neg (fun h => ha h.2), List.append_nil]
    exact mem_complianceWrite now s
  exact ⟨hu, applyUpdates_compliance_only s _ hu⟩

/-- Witness of C19: a deal approved by a manager whose RLD is a Wednesday; only
`compliance_status` is written. -/
theorem reconciler_keeps_manual_approval_witness :
    updateComplianceAndApproval (dateAtNoon 20200) (wednesdayApproved "Jane Manager") =
      [Update.compliance_status "rld_wrong_day"] ∧
    ∀ x ∈ updateComplianceAndApproval (dateAtNoon 20200) (wednesdayApproved "Jane Manager"),
      ∃ v, x = Update.compliance_status v :=
  ⟨by decide,
    (reconciler_keeps_manual_approval (dateAtNoon 20200) (wednesdayApproved "Jane Manager")
      (by decide) (by decide) rfl (by decide)).1⟩

theorem applyUpdates_append (s : DealData) (u w : List Update) :
    applyUpdates s (u ++ w) = applyUpdates (applyUpdates s u) w := by
  simp [applyUpdates, List.foldl_append]

theorem applyUpdates_complianceWrite (now : Int) (s : DealData) :
    applyUpdates s (complianceWrite now s) =
      { s with compliance_status := JSValue.str (getPrimaryViolation
        (calculateAllCompliance now s.closedate s.requested_launch_date s.is_closed
          s.pipeline)) } := by
  unfold complianceWrite
  split_ifs with h
  · rfl
  · rw [not_not] at h
    rcases s with ⟨cd, rd, ic, pl, cs, st, rb, rqd, ab, ad, roa, acd, ard⟩
    simp only [applyUpdates, List.foldl_nil] at h ⊢
    rw [h]

/-- C20 fails after a clearing for date drift on a compliant deal: the first run clears
the approval, and the run on the cleared deal auto-approves it. -/
theorem reconciler_not_idempotent_counterexample :
    updateComplianceAndApproval (dateAtNoon 20200) driftedCompliant = [
      Update.override_request_status "none",
      Update.override_approved_by "",
      Update.override_approval_date none,
      Update.override_requested_by "",
      Update.override_request_date none,
      Update.rld_override_approval "",
      Update.approved_close_date none,
      Update.approved_rld none] ∧
    updateComplianceAndApproval (dateAtNoon 20200)
      (applyUpdates driftedCompliant
        (updateComplianceAndApproval (dateAtNoon 20200) driftedCompliant)) = [
      Update.override_request_status "approved",
      Update.override_approved_by "Auto-approved (Compliant)",
      Update.override_approval_date (some 20200),
      Update.rld_override_approval "Approved",
      Update.approved_close_date (some 20241),
      Update.approved_rld (some 20269)] := by
  decide

/-- C20 as amended: unless the first run clears an approval for date drift on a compliant
deal, the reconciler run on the deal with its own update set applied computes an empty
update set. -/
theorem reconciler_second_run_empty (now : Int) (s : DealData)
    (h : ¬ (datesChangedSinceApproval s = true ∧
      isCompliant (calculateAllCompliance now s.closedate s.requested_launch_date
        s.is_closed s.pipeline) = true)) :
    updateComplianceAndApproval now (applyUpdates s (updateComplianceAndApproval now s)) =
      [] := by
  rw [updateComplianceAndApproval_eq now s, applyUpdates_append, applyUpdates_complianceWrite]
  rcases s with ⟨cd, rd, ic, pl, cs, st, rb, rqd, ab, ad, roa, acd, ard⟩
  simp only [approvalWrites, datesChangedSinceApproval, clearApproval] at h ⊢
  generalize hvs : calculateAllCompliance now cd rd ic pl = vs at h ⊢
  split_ifs with h1 h2 h3 h4 <;>
    simp only [applyUpdates, applyUpdate, List.foldl_cons, List.foldl_nil, List.nil_append] <;>
    rw [updateComplianceAndApproval_eq] <;>
    simp only [complianceWrite, approvalWrites, datesChangedSinceApproval, clearApproval, hvs] <;>
    simp_all
  by_cases hst : st = JSValue.str "approved" <;> simp_all

/-- Witness of C20 as amended: a compliant deal without approval is auto-approved by the
first run and left alone by the second. -/
theorem reconciler_second_run_empty_witness :
    ¬ (datesChangedSinceApproval compliantUnapproved = true ∧
      isCompliant (calculateAllCompliance (dateAtNoon 20200) compliantUnapproved.closedate
        compliantUnapproved.requested_launch_date compliantUnapproved.is_closed
        compliantUnapproved.pipeline) = true) ∧
    updateComplianceAndApproval (dateAtNoon 20200) compliantUnapproved ≠ [] ∧
    updateComplianceAndApproval (dateAtNoon 20200)
      (applyUpdates compliantUnapproved
        (updateComplianceAndApproval (dateAtNoon 20200) compliantUnapproved)) = [] :=
  ⟨by decide, by decide,
    reconciler_second_run_empty (dateAtNoon 20200) compliantUnapproved (by decide)⟩

/-- After a clearing for date drift on a compliant deal, the second run writes exactly the
auto-approval. -/
theorem reconciler_second_run_after_drift (now : Int) (s : DealData)
    (hd : datesChangedSinceApproval s = true)
    (hc : isCompliant (calculateAllCompliance now s.closedate s.requested_launch_date
      s.is_closed s.pipeline) = true) :
    updateComplianceAndApproval now (applyUpdates s (updateComplianceAndApproval now s)) = [
      Update.override_request_status "approved",
      Update.override_approved_by "Auto-approved (Compliant)",
      Update.override_approval_date (some (dayOf now)),
      Update.rld_override_approval "Approved",
      Update.approved_close_date s.closedate,
      Update.approved_rld s.requested_launch_date] := by
  rw [updateComplianceAndApproval_eq now s, applyUpdates_append, applyUpdates_complianceWrite,
    approvalWrites, if_pos hd]
  rcases s with ⟨cd, rd, ic, pl, cs, st, rb, rqd, ab, ad, roa, acd, ard⟩
  simp only [clearApproval, applyUpdates, applyUpdate, List.foldl_cons, List.foldl_nil,
    List.nil_append] at hc ⊢
  rw [updateComplianceAndApproval_eq]
  simp only [complianceWrite, approvalWrites, datesChangedSinceApproval, hc]
  simp

/-! ## Claims on permissions, primary violation and pipelines -/

/-- C24: `checkApprovalPermission(user)` is true exactly when `user.id` is the super-admin
id 60990003 or `user.teams` is an array with a team named "Revenue" or
"IT, Systems & Compliance"; a user without teams and with another id is denied. -/
theorem checkApprovalPermission_iff (user : User) :
    (checkApprovalPermission user = true ↔
      (user.id = JSArg.num 60990003 ∨
        ∃ teams, user.teams = some teams ∧
          ∃ team ∈ teams, team.name = "Revenue" ∨ team.name = "IT, Systems & Compliance")) ∧
    (checkApprovalPermission ⟨JSArg.num 12345, none⟩ = false) := by
  refine ⟨?_, by decide⟩
  rcases user with ⟨id, teams⟩
  by_cases hid : id = JSArg.num 60990003
  · simp [checkApprovalPermission, hid]
  · rcases teams with _ | teams
    · simp [checkApprovalPermission, hid]
    · simp [checkApprovalPermission, hid]

theorem type_ne_compliant_of_mem_firedRules (now : Int) (closeDate rldDate : Option Int)
    (isClosed pipeline : JSValue) (v : Violation)
    (hv : v ∈ firedRules now closeDate rldDate isClosed pipeline) :
    (v.type != "compliant") = true := by
  rcases mem_firedRules_cases _ _ _ _ _ v hv with h | h | h | h | h | h | h | h <;>
    subst h <;> decide

/-- C26: on a list returned by `calculateAllCompliance`, `getPrimaryViolation` returns
"compliant" when the list is the single compliant entry, and otherwise the type of the
entry with the lowest priority number. -/
theorem getPrimaryViolation_calculateAllCompliance (now : Int) (closeDate rldDate : Option Int)
    (isClosed pipeline : JSValue) :
    ((∃ message, calculateAllCompliance now closeDate rldDate isClosed pipeline =
        [⟨0, "compliant", message, "success"⟩]) ∧
      getPrimaryViolation (calculateAllCompliance now closeDate rldDate isClosed pipeline) =
        "compliant") ∨
    ((¬ ∃ message, calculateAllCompliance now closeDate rldDate isClosed pipeline =
        [⟨0, "compliant", message, "success"⟩]) ∧
      ∃ v ∈ calculateAllCompliance now closeDate rldDate isClosed pipeline,
        getPrimaryViolation (calculateAllCompliance now closeDate rldDate isClosed pipeline) =
          v.type ∧
        ∀ w ∈ calculateAllCompliance now closeDate rldDate isClosed pipeline,
          v.priority ≤ w.priority) := by
  rw [calculateAllCompliance_eq]
  split_ifs with h
  · left
    exact ⟨⟨_, rfl⟩, by simp [getPrimaryViolation, compliantEntry]⟩
  · right
    have hsorted := firedRules_sorted now closeDate rldDate isClosed pipeline
    have htype := type_ne_compliant_of_mem_firedRules now closeDate rldDate isClosed pipeline
    generalize firedRules now closeDate rldDate isClosed pipeline = l at h hsorted htype
    rcases l with _ | ⟨v, rest⟩
    · exact absurd rfl h
    · refine ⟨?_, v, List.mem_cons_self _ _, ?_, ?_⟩
      · rintro ⟨m, hm⟩
        have := htype v (List.mem_cons_self _ _)
        rw [List.cons.injEq] at hm
        rw [hm.1] at this
        simp at this
      · have hf : List.filter (fun v => v.type != "compliant") (v :: rest) = v :: rest :=
          List.filter_eq_self.2 htype
        simp only [getPrimaryViolation, hf]
      · intro w hw
        rcases List.mem_cons.1 hw with rfl | hw
        · exact le_refl _
        · exact List.rel_of_sorted_cons hsorted w hw

theorem fired34_expansions (closeDate rldDate : Option Int) :
    fired34 closeDate rldDate (JSValue.str "782785325") = [] := by
  rcases closeDate with _ | c <;> rcases rldDate with _ | d <;> simp [fired34]

theorem fired5_expansions (rldDate : Option Int) :
    fired5 rldDate (JSValue.str "782785325") = [] := by
  rcases rldDate with _ | d <;> simp [fired5]

/-- C30: the non-compliant entries returned for the Expansions pipeline are the entries of
priority 1, 2 or 6 returned for any other pipeline on the same inputs, in the same order;
a deal compliant under another pipeline is compliant under Expansions. -/
theorem expansions_entries_eq_filter (now : Int) (closeDate rldDate : Option Int)
    (isClosed pipeline : JSValue) :
    (calculateAllCompliance now closeDate rldDate isClosed (JSValue.str "782785325")).filter
        (fun v => v.type != "compliant") =
      (calculateAllCompliance now closeDate rldDate isClosed pipeline).filter
        (fun v => v.priority == 1 || v.priority == 2 || v.priority == 6) ∧
    ((∃ message, calculateAllCompliance now closeDate rldDate isClosed pipeline =
        [⟨0, "compliant", message, "success"⟩]) →
      ∃ message, calculateAllCompliance now closeDate rldDate isClosed
        (JSValue.str "782785325") = [⟨0, "compliant", message, "success"⟩]) := by
  have h34 := fired34_expansions closeDate rldDate
  have h5 := fired5_expansions rldDate
  constructor
  · rw [calculateAllCompliance_eq, calculateAllCompliance_eq]
    unfold firedRules
    rw [h34, h5]
    rcases fired1_cases now closeDate isClosed with h1 | h1 <;>
    rcases fired2_cases now rldDate with h2 | h2 <;>
    rcases fired34_cases closeDate rldDate pipeline with h3 | h3 | h3 <;>
    rcases fired5_cases rldDate pipeline with h5' | h5' | h5' | h5' <;>
    rcases fired6_cases closeDate rldDate with h6 | h6 <;>
    rw [h1, h2, h3, h5', h6] <;>
    simp [compliantEntry, closeDatePast, rldPast, rldBeforeClose, rldTooSoon, rldHoliday,
      rldWrongTuesday, rldWrongDay, missingData]
  · rintro ⟨m, hm⟩
    rw [calculateAllCompliance_eq] at hm ⊢
    have hnil : firedRules now closeDate rldDate isClosed pipeline = [] := by
      by_contra hne
      rw [if_neg hne] at hm
      have hv : (⟨0, "compliant", m, "success"⟩ : Violation) ∈
          firedRules now closeDate rldDate isClosed pipeline := by rw [hm]; simp
      have := type_ne_compliant_of_mem_firedRules _ _ _ _ _ _ hv
      simp at this
    have hx : firedRules now closeDate rldDate isClosed (JSValue.str "782785325") = [] := by
      unfold firedRules at hnil ⊢
      simp only [List.append_eq_nil] at hnil
      rw [h34, h5, hnil.1.1.1.1, hnil.1.1.1.2, hnil.2]
      rfl
    rw [if_pos hx]
    exact ⟨_, rfl⟩

/-- Example of C30: close date and RLD both in the past, the RLD a Wednesday before the
close date; Expansions keeps the entries of priority 1 and 2 only. -/
theorem expansions_entries_eq_filter_witness :
    JSValue.str "default" ≠ JSValue.str "782785325" ∧
    (calculateAllCompliance (dateAtNoon 20300) (some 20250) (some 20243) JSValue.undefined
        (JSValue.str "782785325")).filter (fun v => v.type != "compliant") =
      (calculateAllCompliance (dateAtNoon 20300) (some 20250) (some 20243) JSValue.undefined
        (JSValue.str "default")).filter
        (fun v => v.priority == 1 || v.priority == 2 || v.priority == 6) ∧
    (calculateAllCompliance (dateAtNoon 20300) (some 20250) (some 20243) JSValue.undefined
        (JSValue.str "default")).map Violation.priority = [1, 2, 3, 5] :=
  ⟨by decide,
    (expansions_entries_eq_filter (dateAtNoon 20300) (some 20250) (some 20243)
      JSValue.undefined (JSValue.str "default")).1, by decide⟩

/-! ## Further claims on the state reconciler -/

theorem not_compliance_of_mem_approvalWrites (now : Int) (s : DealData) (x : Update)
    (hx : x ∈ approvalWrites now s) (v : String) : x ≠ Update.compliance_status v := by
  intro heq
  subst heq
  unfold approvalWrites clearApproval at hx
  split_ifs at hx <;> simp at hx

/-- C25: the update set contains `compliance_status` exactly when the stored
`compliance_status` differs from the primary violation of the freshly computed list, and
the value written is that primary violation, whichever approval branch is taken. -/
theorem reconciler_compliance_status_write (now : Int) (s : DealData) :
    ((∃ v, Update.compliance_status v ∈ updateComplianceAndApproval now s) ↔
      s.compliance_status ≠ JSValue.str (getPrimaryViolation
        (calculateAllCompliance now s.closedate s.requested_launch_date s.is_closed
          s.pipeline))) ∧
    (∀ v, Update.compliance_status v ∈ updateComplianceAndApproval now s →
      v = getPrimaryViolation
        (calculateAllCompliance now s.closedate s.requested_launch_date s.is_closed
          s.pipeline)) := by
  have key : ∀ v, Update.compliance_status v ∈ updateComplianceAndApproval now s ↔
      Update.compliance_status v ∈ complianceWrite now s := by
    intro v
    rw [updateComplianceAndApproval_eq, List.mem_append]
    constructor
    · rintro (h | h)
      · exact h
      · exact absurd rfl (not_compliance_of_mem_approvalWrites now s _ h v)
    · exact Or.inl
  simp only [key]
  unfold complianceWrite
  split_ifs with h
  · exact ⟨⟨fun _ => h, fun _ => ⟨_, List.mem_singleton.2 rfl⟩⟩,
      fun v hv => by simpa using hv⟩
  · exact ⟨⟨fun ⟨v, hv⟩ => by simp at hv, fun h' => absurd h' h⟩, fun v hv => by simp at hv⟩

theorem approvalWrites_cases (now : Int) (s : DealData) :
    approvalWrites now s = [] ∨ approvalWrites now s = clearApproval [] ∨
    approvalWrites now s = [
      Update.override_request_status "approved",
      Update.override_approved_by "Auto-approved (Compliant)",
      Update.override_approval_date (some (dayOf now)),
      Update.rld_override_approval "Approved",
      Update.approved_close_date s.closedate,
      Update.approved_rld s.requested_launch_date] := by
  unfold approvalWrites
  split_ifs <;> simp

theorem mem_update_iff_of_not_compliance (now : Int) (s : DealData) (x : Update)
    (hx : ∀ v, x ≠ Update.compliance_status v) :
    x ∈ updateComplianceAndApproval now s ↔ x ∈ approvalWrites now s := by
  rw [updateComplianceAndApproval_eq, List.mem_append]
  constructor
  · rintro (h | h)
    · obtain ⟨v, hv⟩ := mem_complianceWrite now s x h
      exact absurd hv (hx v)
    · exact h
  · exact Or.inr

/-- C29: whenever the update set writes `override_request_status` it also writes
`rld_override_approval`, "Approved" exactly when the status written is "approved" and the
empty string exactly when it is "none"; so after the update is applied the closing gate
is not open on a deal the reconciler has just cleared. -/
theorem reconciler_status_and_gate (now : Int) (s : DealData) :
    (∀ v, Update.override_request_status v ∈ updateComplianceAndApproval now s →
      (v = "approved" ∨ v = "none") ∧
      (∃ w, Update.rld_override_approval w ∈ updateComplianceAndApproval now s) ∧
      (∀ w, Update.rld_override_approval w ∈ updateComplianceAndApproval now s →
        (w = "Approved" ↔ v = "approved") ∧ (w = "" ↔ v = "none"))) ∧
    (Update.override_request_status "none" ∈ updateComplianceAndApproval now s →
      canClose (applyUpdates s (updateComplianceAndApproval now s)) = false) := by
  constructor
  · intro v hv
    rw [mem_update_iff_of_not_compliance now s _ (fun _ => by simp)] at hv
    have hr : ∀ w, Update.rld_override_approval w ∈ updateComplianceAndApproval now s ↔
        Update.rld_override_approval w ∈ approvalWrites now s :=
      fun w => mem_update_iff_of_not_compliance now s _ (fun _ => by simp)
    simp only [hr]
    rcases approvalWrites_cases now s with h | h | h <;> rw [h] at hv ⊢
    · simp at hv
    · simp only [clearApproval, List.nil_append, List.mem_cons, Update.override_request_status.injEq,
        reduceCtorEq, List.mem_singleton, or_false, false_or, List.not_mem_nil] at hv ⊢
      subst hv
      simp
    · simp only [List.mem_cons, Update.override_request_status.injEq, reduceCtorEq,
        List.mem_singleton, or_false, false_or, List.not_mem_nil] at hv ⊢
      subst hv
      simp
  · intro hv
    rw [mem_update_iff_of_not_compliance now s _ (fun _ => by simp)] at hv
    rw [updateComplianceAndApproval_eq, applyUpdates_append, applyUpdates_complianceWrite]
    rcases approvalWrites_cases now s with h | h | h <;> rw [h] at hv ⊢ <;>
      simp [clearApproval] at hv
    simp [clearApproval, applyUpdates, applyUpdate, canClose]

theorem datesChangedSinceApproval_after_update (now : Int) (s : DealData) :
    datesChangedSinceApproval (applyUpdates s (updateComplianceAndApproval now s)) = false := by
  rw [updateComplianceAndApproval_eq now s, applyUpdates_append, applyUpdates_complianceWrite]
  rcases s with ⟨cd, rd, ic, pl, cs, st, rb, rqd, ab, ad, roa, acd, ard⟩
  simp only [approvalWrites, datesChangedSinceApproval, clearApproval]
  split_ifs with h1 h2 h3 h4 <;>
    simp only [applyUpdates, applyUpdate, List.foldl_cons, List.foldl_nil, List.nil_append] <;>
    simp_all

theorem second_run_of_no_drift (now : Int) (s : DealData)
    (h : datesChangedSinceApproval s = false) :
    updateComplianceAndApproval now (applyUpdates s (updateComplianceAndApproval now s)) =
      [] := by
  rw [updateComplianceAndApproval_eq now s, applyUpdates_append, applyUpdates_complianceWrite]
  rcases s with ⟨cd, rd, ic, pl, cs, st, rb, rqd, ab, ad, roa, acd, ard⟩
  simp only [approvalWrites, h, Bool.false_eq_true, if_false, clearApproval]
  simp only [datesChangedSinceApproval] at h
  generalize hvs : calculateAllCompliance now cd rd ic pl = vs at h ⊢
  split_ifs with h2 h3 h4 <;>
    simp only [applyUpdates, applyUpdate, List.foldl_cons, List.foldl_nil, List.nil_append] <;>
    rw [updateComplianceAndApproval_eq] <;>
    simp only [complianceWrite, approvalWrites, datesChangedSinceApproval, clearApproval, hvs] <;>
    simp_all
  by_cases hst : st = JSValue.str "approved" <;> simp_all

/-- C28: the reconciler reaches a fixed point within two applications: after its update
set has been applied twice in succession, a third run computes an empty update set. -/
theorem reconciler_third_run_empty (now : Int) (s : DealData) :
    updateComplianceAndApproval now
      (applyUpdates (applyUpdates s (updateComplianceAndApproval now s))
        (updateComplianceAndApproval now
          (applyUpdates s (updateComplianceAndApproval now s)))) = [] :=
  second_run_of_no_drift now _ (datesChangedSinceApproval_after_update now s)

/-! ## The suggestion passed back to the evaluator -/

theorem freshTarget_eq_dateAtNoon (c : Int) :
    ∃ k, freshTarget c = dateAtNoon k ∧ c + 28 ≤ k := by
  have hr : ∃ j, rolledTarget c = dateAtNoon j ∧ c + 28 ≤ j := by
    simp only [rolledTarget, addDays_dateAtNoon, getDay_dateAtNoon]
    split_ifs
    · exact ⟨_, rfl, by omega⟩
    · exact ⟨_, rfl, by omega⟩
    · exact ⟨_, rfl, by omega⟩
  obtain ⟨j, hj, hle⟩ := hr
  unfold freshTarget
  split_ifs
  · exact ⟨j + 1, by rw [hj, addDays_dateAtNoon], by omega⟩
  · exact ⟨j, hj, hle⟩

/-- C27: for a non-Expansions deal whose close date is today or later, with no current RLD
or a current RLD earlier than close date + 28 days, the date `calculatePerfectRLD`
suggests, formatted by `formatDateForAPI` and passed to `calculateAllCompliance` with the
same close date, is judged compliant. -/
theorem suggested_rld_is_compliant (now c : Int) (currentRLD : Option Int)
    (isClosed pipeline : JSValue) (hp : pipeline ≠ JSValue.str "782785325")
    (hc : dayOf now ≤ c)
    (hcur : currentRLD = none ∨ ∃ r, currentRLD = some r ∧ r < c + 28) :
    ∃ t, calculatePerfectRLD (some c) currentRLD = some (some t) ∧
      calculateAllCompliance now (some c) (formatDateForAPI (some t)) isClosed pipeline =
        [⟨0, "compliant", "All rules compliant", "success"⟩] := by
  have ht : calculatePerfectRLD (some c) currentRLD = some (some (freshTarget c)) := by
    rcases hcur with rfl | ⟨r, rfl, hr⟩
    · exact calculatePerfectRLD_no_current c
    · rw [calculatePerfectRLD_current, if_neg]
      rw [addDays_dateAtNoon, ge_iff_le, dateAtNoon_le]
      omega
  refine ⟨_, ht, ?_⟩
  obtain ⟨k, hk, hle⟩ := freshTarget_eq_dateAtNoon c
  have hv := freshTarget_valid c
  rw [hk, addDays_dateAtNoon, ← sub_eq_add_neg] at hv
  have hnil : firedRules now (some c) (some k) isClosed pipeline = [] := by
    rw [firedRules_eq_nil_iff]
    exact ⟨c, k, rfl, rfl, Or.inl hc, by omega, Or.inr ⟨hle, hv⟩⟩
  rw [hk, formatDateForAPI, dayOf_dateAtNoon, calculateAllCompliance_eq, if_pos hnil]
  simp [compliantEntry, hp]

/-- Witness of C27: close date 2025-06-02, no current RLD, today 2025-04-22. -/
theorem suggested_rld_is_compliant_witness :
    JSValue.str "default" ≠ JSValue.str "782785325" ∧ dayOf (dateAtNoon 20200) ≤ 20241 ∧
    ∃ t, calculatePerfectRLD (some 20241) none = some (some t) ∧
      calculateAllCompliance (dateAtNoon 20200) (some 20241) (formatDateForAPI (some t))
          JSValue.undefined (JSValue.str "default") =
        [⟨0, "compliant", "All rules compliant", "success"⟩] :=
  ⟨by decide, by decide,
    suggested_rld_is_compliant (dateAtNoon 20200) 20241 none JSValue.undefined
      (JSValue.str "default") (by decide) (by decide) (Or.inl rfl)⟩

/-! ## Claims on the serverless functions and their caller -/

/-- C21, at a context without parameters object: both serverless functions throw to the
caller, because `context.parameters` is destructured before the `try`; with a parameters
object they always return, and a result with `success` false carries an error message. -/
theorem serverless_throw_without_parameters (hasToken : Bool)
    (update : JSArg → JSArg → JSArg → Completion Unit)
    (getById : JSArg → List String → Completion (List (String × JSArg))) :
    (updateDealProperty hasToken update none).completion =
      Completion.thrown "TypeError: cannot destructure context.parameters" ∧
    (getDealProperties hasToken getById none).completion =
      Completion.thrown "TypeError: cannot destructure context.parameters" ∧
    (∀ parameters, ∃ result,
      (updateDealProperty hasToken update (some parameters)).completion =
        Completion.returned result ∧
      (result.success = false → result.error.isSome = true)) ∧
    (∀ parameters, ∃ result,
      (getDealProperties hasToken getById (some parameters)).completion =
        Completion.returned result ∧
      (result.success = false → result.error.isSome = true)) := by
  refine ⟨rfl, rfl, ?_, ?_⟩
  · rintro ⟨dealId, property, value⟩
    simp only [updateDealProperty]
    split_ifs
    · exact ⟨_, rfl, fun _ => rfl⟩
    · exact ⟨_, rfl, fun _ => rfl⟩
    · exact ⟨_, rfl, fun _ => rfl⟩
    · exact ⟨_, rfl, fun _ => rfl⟩
    · cases update dealId property value with
      | returned u => exact ⟨_, rfl, fun h => by simp at h⟩
      | thrown m => exact ⟨_, rfl, fun _ => rfl⟩
  · rintro ⟨dealId, properties⟩
    simp only [getDealProperties]
    split_ifs
    · exact ⟨_, rfl, fun _ => rfl⟩
    · exact ⟨_, rfl, fun _ => rfl⟩
    · cases getById dealId
          (properties.getD ["seat_count___final", "closedate", "requested_launch_date",
            "pipeline"]) with
      | returned u => exact ⟨_, rfl, fun h => by simp at h⟩
      | thrown m => exact ⟨_, rfl, fun _ => rfl⟩

/-- C22: `updateDealProperty` returns `success` false and makes no CRM call when the deal
id is missing, else when the property name is missing, else when the value is `undefined`
or `null`, with the message of the first test that fails; an empty-string value passes
these tests and reaches the CRM call. `getDealProperties` returns `success` false and
makes no CRM call when the deal id is missing. -/
theorem serverless_validation (hasToken : Bool)
    (update : JSArg → JSArg → JSArg → Completion Unit)
    (getById : JSArg → List String → Completion (List (String × JSArg)))
    (dealId property value : JSArg) (properties : Option (List String)) :
    (dealId.truthy = false →
      updateDealProperty hasToken update (some ⟨dealId, property, value⟩) =
        ⟨Completion.returned ⟨false, some "Deal ID is required"⟩, []⟩) ∧
    (dealId.truthy = true → property.truthy = false →
      updateDealProperty hasToken update (some ⟨dealId, property, value⟩) =
        ⟨Completion.returned ⟨false, some "Property name is required"⟩, []⟩) ∧
    (dealId.truthy = true → property.truthy = true →
      (value = JSArg.undefined ∨ value = JSArg.null) →
      updateDealProperty hasToken update (some ⟨dealId, property, value⟩) =
        ⟨Completion.returned ⟨false, some "Property value is required"⟩, []⟩) ∧
    (dealId.truthy = true → property.truthy = true →
      updateDealProperty true update (some ⟨dealId, property, JSArg.str ""⟩) =
        ⟨Completion.returned
          (match update dealId property (JSArg.str "") with
            | Completion.returned _ => ⟨true, none⟩
            | Completion.thrown message => ⟨false, some message⟩),
          [CrmCall.update dealId property (JSArg.str "")]⟩) ∧
    (dealId.truthy = false →
      ∃ result, getDealProperties hasToken getById (some ⟨dealId, properties⟩) =
        ⟨Completion.returned result, []⟩ ∧ result.success = false ∧
        result.error.isSome = true) := by
  refine ⟨?_, ?_, ?_, ?_, ?_⟩
  · intro h
    simp [updateDealProperty, h]
  · intro h1 h2
    simp [updateDealProperty, h1, h2]
  · intro h1 h2 h3
    simp [updateDealProperty, h1, h2, h3]
  · intro h1 h2
    simp only [updateDealProperty, h1, h2]
    cases update dealId property (JSArg.str "") <;> simp
  · intro h
    simp only [getDealProperties, h]
    cases hasToken <;> simp

/-- Witness of C22: no deal id, no property name, no value. -/
theorem serverless_validation_witness :
    updateDealProperty true (fun _ _ _ => Completion.returned ())
        (some ⟨JSArg.undefined, JSArg.undefined, JSArg.undefined⟩) =
      ⟨Completion.returned ⟨false, some "Deal ID is required"⟩, []⟩ ∧
    updateDealProperty true (fun _ _ _ => Completion.returned ())
        (some ⟨JSArg.num 42, JSArg.str "", JSArg.undefined⟩) =
      ⟨Completion.returned ⟨false, some "Property name is required"⟩, []⟩ ∧
    updateDealProperty true (fun _ _ _ => Completion.returned ())
        (some ⟨JSArg.num 42, JSArg.str "approved_rld", JSArg.null⟩) =
      ⟨Completion.returned ⟨false, some "Property value is required"⟩, []⟩ :=
  ⟨(serverless_validation true (fun _ _ _ => Completion.returned ())
      (fun _ _ => Completion.returned []) JSArg.undefined JSArg.undefined JSArg.undefined
      none).1 rfl,
    (serverless_validation true (fun _ _ _ => Completion.returned ())
      (fun _ _ => Completion.returned []) (JSArg.num 42) (JSArg.str "") JSArg.undefined
      none).2.1 rfl rfl,
    (serverless_validation true (fun _ _ _ => Completion.returned ())
      (fun _ _ => Completion.returned []) (JSArg.num 42) (JSArg.str "approved_rld") JSArg.null
      none).2.2.1 rfl rfl (Or.inr rfl)⟩

theorem updateDealProperties_eq_map (runServerless : JSArg → Update → Completion UpdateResult)
    (dealId : JSArg) (properties : List Update) :
    updateDealProperties runServerless dealId properties =
      properties.map (fun entry =>
        match runServerless dealId entry with
        | Completion.returned result => ⟨entry.property, true, some result, none⟩
        | Completion.thrown message => ⟨entry.property, false, none, some message⟩) := by
  have key : ∀ (ps : List Update) (acc : List UpdateEntry),
      ps.foldl (fun results entry =>
        match runServerless dealId entry with
        | Completion.returned result => results ++ [⟨entry.property, true, some result, none⟩]
        | Completion.thrown message =>
          results ++ [⟨entry.property, false, none, some message⟩]) acc =
      acc ++ ps.map (fun entry =>
        match runServerless dealId entry with
        | Completion.returned result => ⟨entry.property, true, some result, none⟩
        | Completion.thrown message => ⟨entry.property, false, none, some message⟩) := by
    intro ps
    induction ps with
    | nil => intro acc; simp
    | cons p ps ih =>
      intro acc
      rw [List.foldl_cons, ih, List.map_cons]
      cases runServerless dealId p <;> simp
  simpa [updateDealProperties] using key properties []

/-- C23, at a property whose update comes back as a failure result: `updateDealProperties`
returns one entry per property in the map's order, but an entry's `success` flag is true
whenever `runServerless` did not throw, also when the result it resolved with has
`success` false (as `updateDealProperty` returns without access token); the caller then
applies that property to the local state. -/
theorem updateDealProperties_failure_result_counted_success :
    (∀ (runServerless : JSArg → Update → Completion UpdateResult) (dealId : JSArg)
        (properties : List Update),
      (updateDealProperties runServerless dealId properties).map UpdateEntry.property =
        properties.map Update.property ∧
      (updateDealProperties runServerless dealId properties).map UpdateEntry.success =
        properties.map (fun entry =>
          match runServerless dealId entry with
          | Completion.returned _ => true
          | Completion.thrown _ => false)) ∧
    (updateDealProperty false (fun _ _ _ => Completion.returned ())
        (some ⟨JSArg.num 42, JSArg.str "compliance_status", JSArg.str "rld_wrong_day"⟩)).completion =
      Completion.returned ⟨false, some "No access token found"⟩ ∧
    updateComplianceAndApproval (dateAtNoon 20200) (wednesdayApproved "Jane Manager") =
      [Update.compliance_status "rld_wrong_day"] ∧
    updateDealProperties
        (fun _ _ => Completion.returned ⟨false, some "No access token found"⟩) (JSArg.num 42)
        [Update.compliance_status "rld_wrong_day"] =
      [⟨"compliance_status", true, some ⟨false, some "No access token found"⟩, none⟩] ∧
    (wednesdayApproved "Jane Manager").compliance_status = JSValue.str "compliant" ∧
    (localStateAfterUpdate (dateAtNoon 20200)
        (fun _ _ => Completion.returned ⟨false, some "No access token found"⟩) (JSArg.num 42)
        (wednesdayApproved "Jane Manager")).compliance_status =
      JSValue.str "rld_wrong_day" := by
  refine ⟨?_, by decide, by decide, by decide, by decide, by decide⟩
  intro runServerless dealId properties
  rw [updateDealProperties_eq_map, List.map_map, List.map_map]
  constructor
  · apply List.map_congr_left
    intro entry _
    simp only [Function.comp]
    cases runServerless dealId entry <;> rfl
  · apply List.map_congr_left
    intro entry _
    simp only [Function.comp]
    cases runServerless dealId entry <;> rfl

end CarlLaunchDate
